import Mathlib

/-!
Verification development for the condif2css conditional-formatting engine.

The Python sources are shallowly embedded:
* Python `float` arithmetic is modelled by `ℚ` (the concrete values handled by
  the claims stay far from any rounding boundary, so exact rational arithmetic
  agrees with IEEE doubles there);
* Python `round` (banker's rounding, ties to even) is `pyRound`;
* Python strings are Lean `String`s, compared code-point-wise;
* fallible Python code (functions that may raise) returns `Except String`;
* external collaborators (openpyxl worksheets, the `mvin` formula interpreter)
  are abstracted as explicit data/oracle parameters where the engine consumes
  their results.
-/

/-- Python `round`: round half to even (banker's rounding), as used by
`tint_luminance` and `rgb_to_ms_hls`/`rgb_to_hex` in `color.py`. -/
def pyRound (x : ℚ) : ℤ :=
  if x - ⌊x⌋ < 1/2 then ⌊x⌋
  else if 1/2 < x - ⌊x⌋ then ⌊x⌋ + 1
  else if 2 ∣ ⌊x⌋ then ⌊x⌋ else ⌊x⌋ + 1

theorem pyRound_intCast (n : ℤ) : pyRound (n : ℚ) = n := by
  unfold pyRound
  rw [Int.floor_intCast]
  norm_num

theorem pyRound_le_add_half (x : ℚ) : (pyRound x : ℚ) ≤ x + 1/2 := by
  unfold pyRound
  have hfl : (⌊x⌋ : ℚ) ≤ x := Int.floor_le x
  split
  · linarith
  · split
    · rename_i h1 h2
      push_cast
      linarith
    · rename_i h1 h2
      have heq : x - (⌊x⌋ : ℚ) = 1/2 := le_antisymm (not_lt.mp h2) (not_lt.mp h1)
      split
      · linarith
      · push_cast
        linarith

theorem sub_half_le_pyRound (x : ℚ) : x - 1/2 ≤ (pyRound x : ℚ) := by
  unfold pyRound
  have hfl : x < (⌊x⌋ : ℚ) + 1 := Int.lt_floor_add_one x
  split
  · rename_i h1
    linarith
  · split
    · push_cast
      linarith
    · rename_i h1 h2
      have heq : x - (⌊x⌋ : ℚ) = 1/2 := le_antisymm (not_lt.mp h2) (not_lt.mp h1)
      split
      · linarith
      · push_cast
        linarith

theorem pyRound_nonneg {x : ℚ} (h : 0 ≤ x) : 0 ≤ pyRound x := by
  have h2 := sub_half_le_pyRound x
  have h3 : (-1 : ℚ) < (pyRound x : ℚ) := by linarith
  have h4 : (-1 : ℤ) < pyRound x := by exact_mod_cast h3
  omega

theorem pyRound_le_of_le {x : ℚ} {B : ℤ} (h : x ≤ (B : ℚ)) : pyRound x ≤ B := by
  have h2 := pyRound_le_add_half x
  have h3 : (pyRound x : ℚ) < (B : ℚ) + 1 := by linarith
  have h4 : pyRound x < B + 1 := by exact_mod_cast h3
  omega

/-- MS Excel's HLS values are in base 240 (`color.py` constant `HLSMAX`). -/
def HLSMAX : ℚ := 240

/-- RGB byte maximum (`color.py` constant `RGBMAX`). -/
def RGBMAX : ℚ := 255

/-- Embedding of `color.py:tint_luminance`: tint the HLSMAX-based luminance;
`None` tint applies no adjustment before rounding. -/
def tint_luminance (tint : Option ℚ) (lum : ℚ) : ℤ :=
  pyRound
    (match tint with
     | none => lum
     | some t =>
       if t < 0 then lum * (1 + t)
       else lum * (1 - t) + (HLSMAX - HLSMAX * (1 - t)))

/-- Hex-digit test for one character, mirroring the character class of
openpyxl's `aRGB_REGEX` pattern `[A-Fa-f0-9]`. -/
def isHexDigit (c : Char) : Bool :=
  (decide ('0' ≤ c) && decide (c ≤ '9')) ||
  (decide ('a' ≤ c) && decide (c ≤ 'f')) ||
  (decide ('A' ≤ c) && decide (c ≤ 'F'))

/-- Embedding of the external collaborator constant
`openpyxl.styles.colors.aRGB_REGEX` (pattern `^([A-Fa-f0-9]{8}|[A-Fa-f0-9]{6})$`)
as a Boolean shape check. -/
def isARGBHex (s : String) : Bool :=
  (decide (s.length = 6) || decide (s.length = 8)) && s.data.all isHexDigit

/-- Value of one hex digit (the digits fed to it are validated beforehand). -/
def hexDigitVal (c : Char) : ℕ :=
  if decide ('0' ≤ c) && decide (c ≤ '9') then c.toNat - '0'.toNat
  else if decide ('a' ≤ c) && decide (c ≤ 'f') then c.toNat - 'a'.toNat + 10
  else if decide ('A' ≤ c) && decide (c ≤ 'F') then c.toNat - 'A'.toNat + 10
  else 0

/-- Python `int(s, 16)` on a validated hex string, over its character list. -/
def hexVal (l : List Char) : ℕ :=
  l.foldl (fun a c => 16 * a + hexDigitVal c) 0

/-- Python `x % 1.0` for the hue normalization in `colorsys` (result in
`[0, 1)` for every finite input). -/
def pyMod1 (x : ℚ) : ℚ := x - ⌊x⌋

/-- Embedding of CPython `colorsys.rgb_to_hls` (the float constants
`ONE_SIXTH`, `TWO_THIRD`, ... are modelled by the exact rationals they
approximate; the claims' concrete inputs are far from every branch
boundary, so the branches taken agree with IEEE evaluation). -/
def rgb_to_hls (r g b : ℚ) : ℚ × ℚ × ℚ :=
  let maxc := max r (max g b)
  let minc := min r (min g b)
  let sumc := maxc + minc
  let rangec := maxc - minc
  let l := sumc / 2.0
  if minc = maxc then (0.0, l, 0.0)
  else
    let s := if l ≤ 0.5 then rangec / sumc else rangec / (2.0 - sumc)
    let rc := (maxc - r) / rangec
    let gc := (maxc - g) / rangec
    let bc := (maxc - b) / rangec
    let h := if r = maxc then bc - gc
             else if g = maxc then 2.0 + rc - bc
             else 4.0 + gc - rc
    (pyMod1 (h / 6.0), l, s)

/-- Embedding of CPython `colorsys._v`, the helper of `hls_to_rgb`. -/
def colorsysV (m1 m2 hue : ℚ) : ℚ :=
  let hue2 := pyMod1 hue
  if hue2 < 1/6 then m1 + (m2 - m1) * hue2 * 6.0
  else if hue2 < 0.5 then m2
  else if hue2 < 2/3 then m1 + (m2 - m1) * (2/3 - hue2) * 6.0
  else m1

/-- Embedding of CPython `colorsys.hls_to_rgb`. -/
def hls_to_rgb (h l s : ℚ) : ℚ × ℚ × ℚ :=
  if s = 0.0 then (l, l, l)
  else
    let m2 := if l ≤ 0.5 then l * (1.0 + s) else l + s - l * s
    let m1 := 2.0 * l - m2
    (colorsysV m1 m2 (h + 1/3), colorsysV m1 m2 h, colorsysV m1 m2 (h - 1/3))

/-- Embedding of `color.py:rgb_to_ms_hls`: `(0,1)`-ranged RGB to
HLSMAX-based integer HLS. -/
def rgb_to_ms_hls (red green blue : ℚ) : ℤ × ℤ × ℤ :=
  let hls := rgb_to_hls red green blue
  (pyRound (hls.1 * HLSMAX), pyRound (hls.2.1 * HLSMAX), pyRound (hls.2.2 * HLSMAX))

/-- Embedding of `color.py:ms_hls_to_rgb`: HLSMAX-based HLS back to
`(0,1)`-ranged RGB. -/
def ms_hls_to_rgb (hue lightness saturation : ℤ) : ℚ × ℚ × ℚ :=
  hls_to_rgb ((hue : ℚ) / HLSMAX) ((lightness : ℚ) / HLSMAX) ((saturation : ℚ) / HLSMAX)

/-- Embedding of `color.py:argb_to_ms_hls`: validate the `[aa]rrggbb` shape
(raising `ValueError` on failure, modelled as `Except.error`), drop the alpha
byte pair, parse the three channel bytes and convert. The `TypeError` branch
for non-string arguments is unreachable here because the argument is typed. -/
def argb_to_ms_hls (argb : String) : Except String (ℤ × ℤ × ℤ) :=
  if isARGBHex argb then
    let color_str := if 6 < argb.length then argb.data.drop (argb.data.length - 6)
                     else argb.data
    let blue := (hexVal (color_str.drop 4) : ℚ) / RGBMAX
    let green := (hexVal ((color_str.drop 2).take 2) : ℚ) / RGBMAX
    let red := (hexVal (color_str.take 2) : ℚ) / RGBMAX
    Except.ok (rgb_to_ms_hls red green blue)
  else Except.error "Colors must be aRGB hex values"

/-- Lowercase hex digit characters, used by Python `%x` formatting and
`hex(..)`. -/
def hexDigitChar (n : ℕ) : Char := "0123456789abcdef".data.getD n '0'

/-- Fuel-driven digit expansion for `hexStrLower` (structural recursion so the
kernel can evaluate it on concrete inputs). -/
def hexDigitsAux : ℕ → ℕ → List Char
  | 0, _ => []
  | fuel + 1, n =>
    if n < 16 then [hexDigitChar n]
    else hexDigitsAux fuel (n / 16) ++ [hexDigitChar (n % 16)]

/-- Python `"%x" % n` for a natural number (also `hex(n)[2:]`). -/
def hexStrLower (n : ℕ) : String := String.mk (hexDigitsAux (n + 1) n)

/-- Python `"%02x" % n` for an integer. -/
def py02x (n : ℤ) : String :=
  if n < 0 then "-" ++ hexStrLower n.natAbs
  else
    let s := hexStrLower n.toNat
    if s.length < 2 then "0" ++ s else s

/-- Embedding of `color.py:rgb_to_hex`:
`("%02x%02x%02x" % (round(r*255), round(g*255), round(b*255))).upper()`. -/
def rgb_to_hex (red green blue : ℚ) : String :=
  String.mk
    ((py02x (pyRound (red * RGBMAX)) ++ py02x (pyRound (green * RGBMAX)) ++
        py02x (pyRound (blue * RGBMAX))).data.map Char.toUpper)

/-- Tagged model of a dynamically typed Python value, for attributes whose
runtime type the code inspects (`isinstance` checks, truthiness). -/
inductive PyVal where
  | str (s : String)
  | int (n : ℤ)
  | float (q : ℚ)
  | bool (b : Bool)
  | none
deriving DecidableEq, Repr

/-- Model of `openpyxl.styles.colors.Color` as consumed by
`core.py:get_css_color`: the `type` tag plus the attributes the resolver
reads (`value` for theme indices, `tint`, `rgb`, `indexed`). -/
structure PyColor where
  type : String
  value : PyVal
  tint : ℚ
  rgb : PyVal
  indexed : ℤ
deriving DecidableEq, Repr

/-- External collaborator constant `openpyxl.styles.colors.COLOR_INDEX`
(fixed 64-entry legacy indexed palette, indices 0-63). -/
def COLOR_INDEX : List String :=
  ["00000000", "00FFFFFF", "00FF0000", "0000FF00", "000000FF",
   "00FFFF00", "00FF00FF", "0000FFFF", "00000000", "00FFFFFF",
   "00FF0000", "0000FF00", "000000FF", "00FFFF00", "00FF00FF",
   "0000FFFF", "00800000", "00008000", "00000080", "00808000",
   "00800080", "00008080", "00C0C0C0", "00808080", "009999FF",
   "00993366", "00FFFFCC", "00CCFFFF", "00660066", "00FF8080",
   "000066CC", "00CCCCFF", "00000080", "00FF00FF", "00FFFF00",
   "0000FFFF", "00800080", "00800000", "00008080", "000000FF",
   "0000CCFF", "00CCFFFF", "00CCFFCC", "00FFFF99", "0099CCFF",
   "00FF99CC", "00CC99FF", "00FFCC99", "003366FF", "0033CCCC",
   "0099CC00", "00FFCC00", "00FF9900", "00FF6600", "00666699",
   "00969696", "00003366", "00339966", "00003300", "00333300",
   "00993300", "00993366", "00333399", "00333333"]

/-- Embedding of the closure body `core.py:get_css_color` (lines 35-82),
parameterized by the captured effective theme palette. The three `type`
branches mirror the source's `if`/`elif` chain plus the separate `indexed`
`if`; the final line models `return rgb if isinstance(rgb, str) else None`.
In the `indexed` arm the accumulated `rgb` can only be `None` or a string, so
the `not rgb or not aRGB_REGEX.match(rgb)` guard is modelled by the match on
`PyVal.str` (falsy/non-string values fall back to the sentinel). -/
def get_css_color (palette : List String) (color : PyColor) : Except String (Option String) :=
  let first : Except String PyVal :=
    if color.type = "theme" then
      match color.value with
      | PyVal.int v =>
        if 0 ≤ v ∧ v < (palette.length : ℤ) then
          let rgb_base := palette.getD v.toNat ""
          if color.tint = 0 then Except.ok (PyVal.str ("00" ++ rgb_base))
          else
            match argb_to_ms_hls rgb_base with
            | Except.error e => Except.error e
            | Except.ok (h_part, l_part, s_part) =>
              let rgbq := ms_hls_to_rgb h_part (tint_luminance (some color.tint) l_part) s_part
              Except.ok (PyVal.str ("00" ++ rgb_to_hex rgbq.1 rgbq.2.1 rgbq.2.2))
        else Except.ok (PyVal.str "00000000")
      | _ => Except.ok (PyVal.str "00000000")
    else if color.type = "rgb" then Except.ok color.rgb
    else Except.ok PyVal.none
  match first with
  | Except.error e => Except.error e
  | Except.ok rgb0 =>
    let rgb1 :=
      if color.type = "indexed" then
        let r1 :=
          if 0 < color.indexed then
            if color.indexed < 64 then PyVal.str (COLOR_INDEX.getD color.indexed.toNat "")
            else if color.indexed = 64 then PyVal.str (palette.getD 1 "")
            else if color.indexed = 65 then PyVal.str (palette.getD 0 "")
            else rgb0
          else rgb0
        match r1 with
        | PyVal.str s => if s = "" ∨ isARGBHex s = false then PyVal.str "00000000"
                         else PyVal.str s
        | _ => PyVal.str "00000000"
      else rgb0
    Except.ok (match rgb1 with | PyVal.str s => some s | _ => Option.none)

/-- Embedding of `core.py:create_themed_css_color_resolver` (lines 18-33 plus
the returned closure): a missing or too-short palette is replaced by the fixed
white/black fallback before the closure is built. -/
def create_themed_css_color_resolver (theme_argbs_list : Option (List String)) :
    PyColor → Except String (Option String) :=
  get_css_color
    (match theme_argbs_list with
     | Option.none => ["FFFFFF", "000000"]
     | Option.some l => if l.length < 2 then ["FFFFFF", "000000"] else l)

/-- Association-list model of a Python `dict` lookup (`k in d` / `d[k]`). -/
def lookupA {κ α : Type} [DecidableEq κ] : List (κ × α) → κ → Option α
  | [], _ => Option.none
  | (k, v) :: rest, key => if k = key then some v else lookupA rest key

/-- Association-list model of a Python `dict` store `d[k] = v`: an existing
key keeps its position, a new key is appended (insertion order). -/
def setA {κ α : Type} [DecidableEq κ] : List (κ × α) → κ → α → List (κ × α)
  | [], key, w => [(key, w)]
  | (k, v) :: rest, key, w =>
    if k = key then (k, w) :: rest else (k, v) :: setA rest key w

/-- The `" !important"` suffix appended by every `CssBuilder` method. -/
def importantLabel (is_important : Bool) : String :=
  if is_important then " !important" else ""

/-- Embedding of `css.py:CssBuilder.font_color` (lines 96-113), parameterized
by the injected resolver `self.get_css_color`: a `None` resolver result yields
no declaration. -/
def font_color (resolver : PyColor → Except String (Option String))
    (color : PyColor) (is_important : Bool) : Except String (Option (String × String)) :=
  match resolver color with
  | Except.error e => Except.error e
  | Except.ok Option.none => Except.ok Option.none
  | Except.ok (some css_color) =>
    Except.ok (some ("color", css_color ++ importantLabel is_important))

/-- Embedding of `css.py:CssBuilder.background_color` (lines 115-132). -/
def background_color (resolver : PyColor → Except String (Option String))
    (color : PyColor) (is_important : Bool) : Except String (Option (String × String)) :=
  match resolver color with
  | Except.error e => Except.error e
  | Except.ok Option.none => Except.ok Option.none
  | Except.ok (some css_color) =>
    Except.ok (some ("background-color", css_color ++ importantLabel is_important))

/-- Code-point lexicographic strict comparison of Python strings (CPython
compares `str` values by Unicode code point, which is `Char.val` order). -/
def strLt : List Char → List Char → Bool
  | [], [] => false
  | [], _ :: _ => true
  | _ :: _, [] => false
  | a :: as, b :: bs => if a < b then true else if b < a then false else strLt as bs

/-- Python tuple comparison `(k1, v1) <= (k2, v2)` for string pairs, the order
used by `sorted(items)` in `CssRulesRegistry.register`. -/
def pairLe (a b : String × String) : Bool :=
  if strLt a.1.data b.1.data then true
  else if strLt b.1.data a.1.data then false
  else !(strLt b.2.data a.2.data)

/-- Stable insertion of one element: placed before the first existing element
it compares `le` to, after everything strictly smaller. -/
def pyInsert {α : Type} (le : α → α → Bool) (x : α) : List α → List α
  | [] => [x]
  | y :: ys => if le x y then x :: y :: ys else y :: pyInsert le x ys

/-- Stable sort modelling Python `sorted`. -/
def pySorted {α : Type} (le : α → α → Bool) : List α → List α
  | [] => []
  | x :: xs => pyInsert le x (pySorted le xs)

/-- Python `str.join`. -/
def joinSep (sep : String) : List String → String
  | [] => ""
  | [x] => x
  | x :: y :: xs => x ++ sep ++ joinSep sep (y :: xs)

/-- Python `str.zfill(4)`. -/
def zfill4 (s : String) : String :=
  if s.length < 4 then String.mk (List.replicate (4 - s.length) '0') ++ s else s

/-- Serialized CSS block built by `register` from the sorted declarations:
`"\x7b\n\t<prop>: <value>;\n\t...\n\x7d"`. -/
def serializeDecls (sorted_items : List (String × String)) : String :=
  "\x7b\n\t" ++ joinSep "\n\t" (sorted_items.map (fun kv => kv.1 ++ ": " ++ kv.2 ++ ";")) ++ "\n\x7d"

/-- Python `dict(sorted_items)`: later pairs override earlier ones per key. -/
def pyDictOf (items : List (String × String)) : List (String × String) :=
  items.foldl (fun m kv => setA m kv.1 kv.2) []

/-- State of `css.py:CssRulesRegistry`: the constructor arguments plus
`_existing_rules`, the insertion-ordered mapping from content hash to
`(classname, serialized block, canonical property map)`. The blake3 digest of
the length-prefixed serialization `f"\x7blen(contents)\x7d|\x7bcontents\x7d"`
is modelled as a collision-free content hash, represented by the
`(length, contents)` pair it encodes. -/
structure CssRulesRegistry where
  prefixStr : String
  digestSize : ℕ
  existingRules : List ((ℕ × String) × (String × String × List (String × String)))
deriving DecidableEq, Repr

/-- Embedding of `CssRulesRegistry.__init__` (defaults `"xx2h"`, `28`). -/
def newCssRulesRegistry (prefixStr : String) (digestSize : ℕ) : CssRulesRegistry :=
  CssRulesRegistry.mk prefixStr digestSize []

/-- Embedding of `css.py:CssRulesRegistry.register` (lines 241-288): sort the
declarations, serialize, hash, return the cached classname on a hit, else
assign the next sequential `<prefixStr>_x<4-hex>` classname and record the
rule. Returns the classname and the updated registry state. -/
def register (reg : CssRulesRegistry) (items : List (String × String)) :
    String × CssRulesRegistry :=
  let sorted_items := pySorted pairLe items
  let css_rule_contents := serializeDecls sorted_items
  let hashKey : ℕ × String := (css_rule_contents.length, css_rule_contents)
  match lookupA reg.existingRules hashKey with
  | some t => (t.1, reg)
  | Option.none =>
    let rule_count := reg.existingRules.length
    let classname := reg.prefixStr ++ "_x" ++ zfill4 (hexStrLower rule_count)
    (classname,
     CssRulesRegistry.mk reg.prefixStr reg.digestSize
       (reg.existingRules ++ [(hashKey, (classname, css_rule_contents, pyDictOf sorted_items))]))

/-- Python `"..".split("$")` over a character list. -/
def splitDollar : List Char → List (List Char)
  | [] => [[]]
  | c :: rest =>
    if c = '$' then [] :: splitDollar rest
    else
      match splitDollar rest with
      | [] => [[c]]
      | h :: t => (c :: h) :: t

/-- Python `s.startswith("$")` over a character list. -/
def startsWithDollar (s : List Char) : Bool :=
  match s with
  | '$' :: _ => true
  | _ => false

/-- Embedding of `processor.py:get_offsets_for` (lines 36-64): per-axis
offsets for a reference, honoring `$` lock markers; the coordinate argument is
`Option (List Char)` so the `isinstance(cell_coord, str)` guard is a `match`
(`Option.none` models a non-string argument). Returns `(row, column)`. -/
def get_offsets_for (cell_coord : Option (List Char)) (row_offset column_offset : ℤ) :
    ℤ × ℤ :=
  match cell_coord with
  | some s =>
    if 2 ≤ s.length then
      let offset_col := if startsWithDollar s then 0 else column_offset
      let inner_coord := if startsWithDollar s then s.tail else s
      let offset_row := if (splitDollar inner_coord).length = 1 then row_offset else 0
      (offset_row, offset_col)
    else (0, 0)
  | Option.none => (0, 0)

/-- A concrete worksheet cell as the engine reads it: `cell.coordinate`,
`cell.row`, `cell.column` (external collaborator openpyxl `Cell`). -/
structure PCell where
  coordinate : String
  row : ℤ
  column : ℤ
deriving DecidableEq, Repr

/-- Outcome of the per-(rule, cell) work of `process` lines 151-241, i.e. of
the external reference resolution plus the compiled formula call:
`refFail` = a reference could not be resolved (`should_apply_func = False`),
`exc` = the formula call raised, `nonBool` = the result was not a `bool`,
`val b` = the formula returned the boolean `b`. -/
inductive EvalOutcome where
  | refFail
  | exc
  | nonBool
  | val (b : Bool)
deriving DecidableEq, Repr

/-- A conditional-formatting rule as `process` reads it. `formulaCount` is
`len(rule.formula)`; `parseOk` abstracts the external tokenizer/interpreter
succeeding (lines 90-100: `Tokenizer` yields items and `get_interpreter`
returns a callable); `eval` is the oracle for the per-cell outcome (the
delta offsets are a function of the cell and the rule's fixed anchor, so they
are folded into it). -/
structure PRule where
  dxfId : Option ℤ
  priority : ℤ
  stopIfTrue : Option Bool
  formulaCount : ℕ
  parseOk : Bool
  eval : PCell → EvalOutcome

/-- One `sheet.conditional_formatting` group: its ordered rules, whether the
anchor cell of its first range resolves (lines 102-131), and the concrete
cells of all its ranges in declaration order (lines 140-147). -/
structure PGroup where
  rules : List PRule
  anchorOk : Bool
  cells : List PCell

/-- One value of the winner mapping built by `process`:
`(sheet title, coordinate, priority, dxfId, stopIfTrue)`. -/
structure Winner where
  sheetTitle : String
  coordinate : String
  priority : ℤ
  dxfId : ℤ
  stopIfTrue : Bool
deriving DecidableEq, Repr

/-- The winner mapping (Python dict keyed by the code string). -/
abbrev ResMap := List (String × Winner)

/-- The dict key `f"\x7bsheet.title\x7d\\!\x7bcell.coordinate\x7d"` of line 247. -/
def winnerCode (title coordinate : String) : String := title ++ "\\!" ++ coordinate

/-- Embedding of the winner-merge step of `process` (lines 247-273): build the
proposed style tuple, and store it unless an entry with a priority `<=` the
new one already exists for the cell. -/
def mergeWinner (title : String) (cf_priority dxf_id : ℤ) (stop : Bool)
    (coordinate : String) (results : ResMap) : ResMap :=
  let code := winnerCode title coordinate
  let proposed : Winner := Winner.mk title coordinate cf_priority dxf_id stop
  match lookupA results code with
  | some old => if old.priority ≤ cf_priority then results else setA results code proposed
  | Option.none => setA results code proposed

/-- Embedding of the per-cell body of `process` (lines 147-283). The state is
`Option ResMap`; `Option.none` models an exception propagating out of the
worksheet pass (`fail_ok = False` re-raises, line 282-283). -/
def applyCell (fail_ok : Bool) (title : String) (rule : PRule) (dxf_id : ℤ)
    (st : Option ResMap) (cell : PCell) : Option ResMap :=
  match st with
  | Option.none => Option.none
  | some results =>
    match rule.eval cell with
    | EvalOutcome.refFail => some results
    | EvalOutcome.nonBool => some results
    | EvalOutcome.exc => if fail_ok then some results else Option.none
    | EvalOutcome.val b =>
      if b then
        some (mergeWinner title rule.priority dxf_id (rule.stopIfTrue.getD false)
          cell.coordinate results)
      else some results

/-- Embedding of the per-rule body of `process` (lines 73-300): skip when the
rule has no `dxfId` (line 75), when it does not carry exactly one formula
(lines 80, 297-300), when the tokenizer/interpreter fails (lines 91, 100), or
when the anchor is unresolvable (line 133); otherwise evaluate the rule on
every concrete cell of the group's ranges. -/
def processRule (fail_ok : Bool) (title : String) (anchorOk : Bool)
    (cells : List PCell) (st : Option ResMap) (rule : PRule) : Option ResMap :=
  match rule.dxfId with
  | Option.none => st
  | some dxf_id =>
    if rule.formulaCount = 1 then
      if rule.parseOk then
        if anchorOk then cells.foldl (applyCell fail_ok title rule dxf_id) st
        else st
      else st
    else st

/-- Embedding of the per-group loop of `process` (lines 70-303). -/
def processGroup (fail_ok : Bool) (title : String) (st : Option ResMap)
    (g : PGroup) : Option ResMap :=
  g.rules.foldl (processRule fail_ok title g.anchorOk g.cells) st

/-- Embedding of `processor.py:process` for one worksheet: fold every
conditional-formatting group into the winner mapping, starting from the empty
dict (line 66). `Option.none` models the `fail_ok = False` re-raise path. -/
def process (title : String) (groups : List PGroup) (fail_ok : Bool) : Option ResMap :=
  groups.foldl (processGroup fail_ok title) (some [])

theorem lookupA_setA_self {κ α : Type} [DecidableEq κ] (m : List (κ × α)) (k : κ) (w : α) :
    lookupA (setA m k w) k = some w := by
  induction m with
  | nil => simp [setA, lookupA]
  | cons p rest ih =>
    by_cases h : p.1 = k
    · simp [setA, h, lookupA]
    · simp [setA, h, lookupA, ih]

theorem lookupA_setA_ne {κ α : Type} [DecidableEq κ] (m : List (κ × α)) (k k2 : κ) (w : α)
    (h : k ≠ k2) : lookupA (setA m k w) k2 = lookupA m k2 := by
  induction m with
  | nil => simp [setA, lookupA, h]
  | cons p rest ih =>
    by_cases hp : p.1 = k
    · simp [setA, hp, lookupA, h]
    · simp [setA, hp, lookupA, ih]

theorem mem_setA {κ α : Type} [DecidableEq κ] {m : List (κ × α)} {k : κ} {w : α}
    {p : κ × α} (h : p ∈ setA m k w) : p ∈ m ∨ p = (k, w) := by
  induction m with
  | nil => simp [setA] at h; simp [h]
  | cons q rest ih =>
    by_cases hq : q.1 = k
    · simp [setA, hq] at h
      rcases h with h | h
      · right; rw [h, ← hq]
      · left; simp [h]
    · simp [setA, hq] at h
      rcases h with h | h
      · left; simp [h]
      · rcases ih h with h2 | h2
        · left; simp [h2]
        · right; exact h2

theorem lookupA_mem {κ α : Type} [DecidableEq κ] {m : List (κ × α)} {k : κ} {v : α}
    (h : lookupA m k = some v) : (k, v) ∈ m := by
  induction m with
  | nil => simp [lookupA] at h
  | cons q rest ih =>
    by_cases hq : q.1 = k
    · simp [lookupA, hq] at h
      have hq2 : q = (k, v) := Prod.ext hq h
      rw [hq2]
      exact List.mem_cons_self _ _
    · simp [lookupA, hq] at h
      right
      exact ih h

theorem splitDollar_ne_nil (l : List Char) : splitDollar l ≠ [] := by
  induction l with
  | nil => simp [splitDollar]
  | cons c rest ih =>
    by_cases hc : c = '$'
    · simp [splitDollar, hc]
    · simp only [splitDollar, if_neg hc]
      cases h : splitDollar rest with
      | nil => exact absurd h ih
      | cons x xs => simp

theorem splitDollar_length_one_iff (l : List Char) :
    (splitDollar l).length = 1 ↔ l.contains '$' = false := by
  induction l with
  | nil => simp [splitDollar]
  | cons c rest ih =>
    by_cases hc : c = '$'
    · simp only [splitDollar, if_pos hc]
      constructor
      · intro h
        exfalso
        simp at h
        exact splitDollar_ne_nil rest h
      · intro h
        simp [hc] at h
    · simp only [splitDollar, if_neg hc]
      cases h : splitDollar rest with
      | nil => exact absurd h (splitDollar_ne_nil rest)
      | cons x xs =>
        have hih := ih
        rw [h] at hih
        simp only [List.length_cons] at hih ⊢
        rw [List.contains_cons]
        have hcb : ('$' == c) = false := beq_eq_false_iff_ne.mpr (fun he => hc he.symm)
        rw [hcb]
        simp only [Bool.false_or]
        exact hih

/-- A reference whose column component carries the `$` lock marker (the claim's
spec-side reading: the string starts with `$`). -/
def colLockedSpec (s : List Char) : Bool := startsWithDollar s

/-- A reference whose row component carries the `$` lock marker (the claim's
spec-side reading: a `$` occurs after the optional leading column lock). -/
def rowLockedSpec (s : List Char) : Bool :=
  (if colLockedSpec s then s.tail else s).contains '$'

/-- C5: for every operand reference string of length at least 2, the computed
offsets honor the lock markers — a `$`-locked column component contributes `0`
column offset, a `$`-locked row component contributes `0` row offset, and an
unlocked axis contributes the corresponding delta; a non-string (modelled
`Option.none`) or too-short reference yields `(0, 0)`. -/
theorem get_offsets_for_some_eq (s : List Char) (ro co : ℤ) :
    get_offsets_for (some s) ro co =
      if 2 ≤ s.length then
        ((if (splitDollar (if startsWithDollar s then s.tail else s)).length = 1
            then ro else 0),
         (if startsWithDollar s then 0 else co))
      else (0, 0) := rfl

theorem c5_offsets_honor_lock_markers :
    ∀ (ref : Option (List Char)) (row_delta column_delta : ℤ),
      (∀ s, ref = some s → 2 ≤ s.length →
        get_offsets_for ref row_delta column_delta =
          ((if rowLockedSpec s then 0 else row_delta),
           (if colLockedSpec s then 0 else column_delta))) ∧
      ((ref = Option.none ∨ ∃ s, ref = some s ∧ s.length < 2) →
        get_offsets_for ref row_delta column_delta = (0, 0)) := by
  intro ref row_delta column_delta
  constructor
  · intro s hs hlen
    subst hs
    rw [get_offsets_for_some_eq, if_pos hlen]
    have hrow : ∀ inner : List Char,
        (if (splitDollar inner).length = 1 then row_delta else 0) =
          (if inner.contains '$' = true then 0 else row_delta) := by
      intro inner
      by_cases h : inner.contains '$' = true
      · have hlen1 : ¬ (splitDollar inner).length = 1 := by
          rw [splitDollar_length_one_iff, h]
          simp
        rw [if_neg hlen1, if_pos h]
      · simp only [Bool.not_eq_true] at h
        rw [if_pos ((splitDollar_length_one_iff inner).mpr h), if_neg (by rw [h]; simp)]
    simp only [colLockedSpec, rowLockedSpec]
    by_cases hc : startsWithDollar s = true
    · simp only [hc, if_true]
      exact Prod.ext (hrow s.tail) rfl
    · simp only [Bool.not_eq_true] at hc
      simp only [hc, Bool.false_eq_true, if_false]
      exact Prod.ext (hrow s) rfl
  · intro h
    rcases h with h | ⟨s, hs, hlen⟩
    · subst h; rfl
    · subst hs
      rw [get_offsets_for_some_eq, if_neg (by omega)]

theorem c5_offsets_witness :
    get_offsets_for (some ['A', '$', '1']) 5 7 = (0, 7) ∧
      get_offsets_for (some ['$', 'A', '1']) 5 7 = (5, 0) ∧
      get_offsets_for Option.none 5 7 = (0, 0) := by
  refine ⟨?_, ?_, ?_⟩
  · have h := (c5_offsets_honor_lock_markers (some ['A', '$', '1']) 5 7).1
      ['A', '$', '1'] rfl (by decide)
    rw [h]
    decide
  · have h := (c5_offsets_honor_lock_markers (some ['$', 'A', '1']) 5 7).1
      ['$', 'A', '1'] rfl (by decide)
    rw [h]
    decide
  · exact (c5_offsets_honor_lock_markers Option.none 5 7).2 (Or.inl rfl)

/-- Concrete cell used by witnesses and counterexamples. -/
def cellA1 : PCell := PCell.mk "A1" 1 1

/-- Evaluation oracle of a rule whose formula matches every cell. -/
def alwaysTrue : PCell → EvalOutcome := fun _ => EvalOutcome.val true

/-- C3 counterexample: a rule whose `dxfId` is the negative number `-1` is
not skipped — it contributes the winner entry for `A1`, because line 75 of
`processor.py` only tests `dxf_id is not None` and never its sign. -/
theorem c3_negative_styleid_counterexample :
    process "Sheet1"
        [PGroup.mk [PRule.mk (some (-1)) 1 Option.none 1 true alwaysTrue] true [cellA1]]
        true =
      some [("Sheet1\\!A1", Winner.mk "Sheet1" "A1" 1 (-1) false)] := by decide

/-- C3 (amended): a rule whose `dxfId` is absent is skipped entirely and
contributes no entry for any cell; a present `dxfId`, negative included, is
processed normally. -/
theorem c3_absent_styleid_rule_is_skipped :
    ∀ (fail_ok : Bool) (title : String) (anchorOk : Bool) (cells : List PCell)
      (st : Option ResMap) (rule : PRule), rule.dxfId = Option.none →
      processRule fail_ok title anchorOk cells st rule = st := by
  intro fo t a cs st r h
  unfold processRule
  rw [h]

theorem c3_absent_styleid_rule_is_skipped_witness :
    processRule true "Sheet1" true [cellA1] (some [])
      (PRule.mk Option.none 1 Option.none 1 true alwaysTrue) = some [] :=
  c3_absent_styleid_rule_is_skipped true "Sheet1" true [cellA1] (some [])
    (PRule.mk Option.none 1 Option.none 1 true alwaysTrue) rfl

/-- C4 counterexample: a two-operand rule (the shape of a
`between`/`notBetween` comparison, `len(rule.formula) == 2`) is skipped
outright — it contributes nothing even though its evaluation oracle matches
every cell, because lines 80 and 297-300 of `processor.py` only accept rules
carrying exactly one formula. -/
theorem c4_two_formula_rule_skipped_counterexample :
    process "Sheet1"
        [PGroup.mk [PRule.mk (some 3) 1 Option.none 2 true alwaysTrue] true [cellA1]]
        true =
      some [] := by decide

/-- C4 (amended): the engine performs no comparison-kind classification; every
rule whose formula list does not have length exactly 1 — two-operand
`between`/`notBetween` comparison rules included — is skipped with a warning,
and only single-formula rules are evaluated. -/
theorem c4_non_single_formula_rule_is_skipped :
    ∀ (fail_ok : Bool) (title : String) (anchorOk : Bool) (cells : List PCell)
      (st : Option ResMap) (rule : PRule), rule.formulaCount ≠ 1 →
      processRule fail_ok title anchorOk cells st rule = st := by
  intro fo t a cs st r h
  cases hd : r.dxfId with
  | none =>
    unfold processRule
    rw [hd]
  | some d =>
    unfold processRule
    rw [hd]
    exact if_neg h

theorem c4_non_single_formula_rule_is_skipped_witness :
    processRule true "Sheet1" true [cellA1] (some [])
      (PRule.mk (some 3) 1 Option.none 2 true alwaysTrue) = some [] :=
  c4_non_single_formula_rule_is_skipped true "Sheet1" true [cellA1] (some [])
    (PRule.mk (some 3) 1 Option.none 2 true alwaysTrue) (by decide)

theorem mergeWinner_eq_match (title : String) (p d : ℤ) (s : Bool) (coordinate : String)
    (m : ResMap) :
    mergeWinner title p d s coordinate m =
      (match lookupA m (winnerCode title coordinate) with
       | some old => if old.priority ≤ p then m
           else setA m (winnerCode title coordinate) (Winner.mk title coordinate p d s)
       | Option.none =>
           setA m (winnerCode title coordinate) (Winner.mk title coordinate p d s)) := rfl

theorem mergeWinner_keep {title : String} {p d : ℤ} {s : Bool} {coordinate : String}
    {m : ResMap} {old : Winner} (h : lookupA m (winnerCode title coordinate) = some old)
    (hle : old.priority ≤ p) : mergeWinner title p d s coordinate m = m := by
  rw [mergeWinner_eq_match, h]
  exact if_pos hle

theorem mergeWinner_replace {title : String} {p d : ℤ} {s : Bool} {coordinate : String}
    {m : ResMap} {old : Winner} (h : lookupA m (winnerCode title coordinate) = some old)
    (hlt : p < old.priority) :
    mergeWinner title p d s coordinate m =
      setA m (winnerCode title coordinate) (Winner.mk title coordinate p d s) := by
  rw [mergeWinner_eq_match, h]
  exact if_neg (not_le.mpr hlt)

theorem mergeWinner_fresh {title : String} {p d : ℤ} {s : Bool} {coordinate : String}
    {m : ResMap} (h : lookupA m (winnerCode title coordinate) = Option.none) :
    mergeWinner title p d s coordinate m =
      setA m (winnerCode title coordinate) (Winner.mk title coordinate p d s) := by
  rw [mergeWinner_eq_match, h]

/-- C1: (i) an existing winner entry for a cell is kept when the new matching
priority is not strictly lower, and replaced by the new entry exactly when it
is strictly lower; (ii) for two rules with priorities `p1 < p2` both matching
the same cell, the final winner entry records `p1` and `p1`'s style id
regardless of the order the rules appear across the groups. -/
theorem c1_lower_priority_wins :
    (∀ (title : String) (p d : ℤ) (s : Bool) (coordinate : String) (m : ResMap)
       (old : Winner), lookupA m (winnerCode title coordinate) = some old →
        (old.priority ≤ p → mergeWinner title p d s coordinate m = m) ∧
        (p < old.priority →
          lookupA (mergeWinner title p d s coordinate m) (winnerCode title coordinate) =
            some (Winner.mk title coordinate p d s))) ∧
    (∀ (title : String) (cell : PCell) (p1 p2 d1 d2 : ℤ) (s1 s2 : Option Bool)
       (fail_ok : Bool), p1 < p2 →
        process title
            [PGroup.mk [PRule.mk (some d1) p1 s1 1 true alwaysTrue] true [cell],
             PGroup.mk [PRule.mk (some d2) p2 s2 1 true alwaysTrue] true [cell]]
            fail_ok =
          some [(winnerCode title cell.coordinate,
                 Winner.mk title cell.coordinate p1 d1 (s1.getD false))] ∧
        process title
            [PGroup.mk [PRule.mk (some d2) p2 s2 1 true alwaysTrue] true [cell],
             PGroup.mk [PRule.mk (some d1) p1 s1 1 true alwaysTrue] true [cell]]
            fail_ok =
          some [(winnerCode title cell.coordinate,
                 Winner.mk title cell.coordinate p1 d1 (s1.getD false))]) := by
  constructor
  · intro title p d s coordinate m old h
    constructor
    · intro hle
      exact mergeWinner_keep h hle
    · intro hlt
      rw [mergeWinner_replace h hlt]
      exact lookupA_setA_self m (winnerCode title coordinate) (Winner.mk title coordinate p d s)
  · intro title cell p1 p2 d1 d2 s1 s2 fail_ok h
    have h12 : p1 ≤ p2 := le_of_lt h
    have h21 : ¬ p2 ≤ p1 := not_le.mpr h
    constructor
    · simp [process, processGroup, processRule, applyCell, mergeWinner, lookupA, setA,
        winnerCode, alwaysTrue, h12, h21]
    · simp [process, processGroup, processRule, applyCell, mergeWinner, lookupA, setA,
        winnerCode, alwaysTrue, h12, h21]

theorem c1_lower_priority_wins_witness :
    (mergeWinner "S" 5 9 false "A1" [(winnerCode "S" "A1", Winner.mk "S" "A1" 3 7 false)] =
       [(winnerCode "S" "A1", Winner.mk "S" "A1" 3 7 false)]) ∧
    (process "S"
        [PGroup.mk [PRule.mk (some 7) 1 Option.none 1 true alwaysTrue] true [cellA1],
         PGroup.mk [PRule.mk (some 8) 2 Option.none 1 true alwaysTrue] true [cellA1]]
        true =
      some [(winnerCode "S" "A1", Winner.mk "S" "A1" 1 7 false)]) := by
  constructor
  · exact ((c1_lower_priority_wins.1 "S" 5 9 false "A1"
      [(winnerCode "S" "A1", Winner.mk "S" "A1" 3 7 false)]
      (Winner.mk "S" "A1" 3 7 false) (by decide)).1 (by decide))
  · exact (c1_lower_priority_wins.2 "S" cellA1 1 2 7 8 Option.none Option.none true
      (by decide)).1

theorem processRule_dxfId_none {r : PRule} (hd : r.dxfId = Option.none)
    (fo : Bool) (t : String) (a : Bool) (cs : List PCell) (st : Option ResMap) :
    processRule fo t a cs st r = st := by
  unfold processRule
  rw [hd]

theorem processRule_some_eq {r : PRule} {d : ℤ} (hd : r.dxfId = some d)
    (fo : Bool) (t : String) (a : Bool) (cs : List PCell) (st : Option ResMap) :
    processRule fo t a cs st r =
      if r.formulaCount = 1 then
        if r.parseOk = true then
          if a = true then List.foldl (applyCell fo t r d) st cs else st
        else st
      else st := by
  unfold processRule
  rw [hd]

theorem applyCell_none_eq (fo : Bool) (t : String) (r : PRule) (d : ℤ) (cell : PCell) :
    applyCell fo t r d Option.none cell = Option.none := rfl

theorem applyCell_some_eq (fo : Bool) (t : String) (r : PRule) (d : ℤ) (m0 : ResMap)
    (cell : PCell) :
    applyCell fo t r d (some m0) cell =
      (match r.eval cell with
       | EvalOutcome.refFail => some m0
       | EvalOutcome.nonBool => some m0
       | EvalOutcome.exc => if fo then some m0 else Option.none
       | EvalOutcome.val b =>
         if b then
           some (mergeWinner t r.priority d (r.stopIfTrue.getD false) cell.coordinate m0)
         else some m0) := rfl

theorem applyCell_eval_true {r : PRule} {cell : PCell}
    (hev : r.eval cell = EvalOutcome.val true) (fo : Bool) (t : String) (d : ℤ)
    (m0 : ResMap) :
    applyCell fo t r d (some m0) cell =
      some (mergeWinner t r.priority d (r.stopIfTrue.getD false) cell.coordinate m0) := by
  rw [applyCell_some_eq, hev]
  rfl

theorem applyCell_refFail_eq {r : PRule} {cell : PCell}
    (hev : r.eval cell = EvalOutcome.refFail) (fo : Bool) (t : String) (d : ℤ)
    (m0 : ResMap) : applyCell fo t r d (some m0) cell = some m0 := by
  rw [applyCell_some_eq, hev]

theorem applyCell_nonBool_eq {r : PRule} {cell : PCell}
    (hev : r.eval cell = EvalOutcome.nonBool) (fo : Bool) (t : String) (d : ℤ)
    (m0 : ResMap) : applyCell fo t r d (some m0) cell = some m0 := by
  rw [applyCell_some_eq, hev]

theorem applyCell_exc_eq {r : PRule} {cell : PCell}
    (hev : r.eval cell = EvalOutcome.exc) (fo : Bool) (t : String) (d : ℤ)
    (m0 : ResMap) :
    applyCell fo t r d (some m0) cell = (if fo = true then some m0 else Option.none) := by
  rw [applyCell_some_eq, hev]

theorem applyCell_eval_false_eq {r : PRule} {cell : PCell}
    (hev : r.eval cell = EvalOutcome.val false) (fo : Bool) (t : String) (d : ℤ)
    (m0 : ResMap) : applyCell fo t r d (some m0) cell = some m0 := by
  rw [applyCell_some_eq, hev]
  rfl

theorem foldl_applyCell_none (fo : Bool) (t : String) (r : PRule) (d : ℤ)
    (cs : List PCell) :
    List.foldl (applyCell fo t r d) Option.none cs = Option.none := by
  induction cs with
  | nil => rfl
  | cons x xs ih => rw [List.foldl_cons, applyCell_none_eq, ih]

theorem processRule_none_st (fo : Bool) (t : String) (a : Bool) (cs : List PCell)
    (r : PRule) : processRule fo t a cs Option.none r = Option.none := by
  cases hd : r.dxfId with
  | none => exact processRule_dxfId_none hd fo t a cs Option.none
  | some d =>
    rw [processRule_some_eq hd]
    split
    · split
      · split
        · exact foldl_applyCell_none fo t r d cs
        · rfl
      · rfl
    · rfl

theorem foldl_processRule_none (fo : Bool) (t : String) (a : Bool) (cs : List PCell)
    (rules : List PRule) :
    List.foldl (processRule fo t a cs) Option.none rules = Option.none := by
  induction rules with
  | nil => rfl
  | cons x xs ih => rw [List.foldl_cons, processRule_none_st, ih]

theorem processGroup_none_st (fo : Bool) (t : String) (g : PGroup) :
    processGroup fo t Option.none g = Option.none := by
  unfold processGroup
  exact foldl_processRule_none fo t g.anchorOk g.cells g.rules

theorem foldl_processGroup_none (fo : Bool) (t : String) (gs : List PGroup) :
    List.foldl (processGroup fo t) Option.none gs = Option.none := by
  induction gs with
  | nil => rfl
  | cons x xs ih => rw [List.foldl_cons, processGroup_none_st, ih]

theorem lookupA_mergeWinner_ne {title coord c : String}
    (hne : winnerCode title coord ≠ c) (p d : ℤ) (s : Bool) (m : ResMap) :
    lookupA (mergeWinner title p d s coord m) c = lookupA m c := by
  cases hl : lookupA m (winnerCode title coord) with
  | none =>
    rw [mergeWinner_fresh hl]
    exact lookupA_setA_ne m _ c _ hne
  | some old =>
    by_cases hle : old.priority ≤ p
    · rw [mergeWinner_keep hl hle]
    · rw [mergeWinner_replace hl (not_le.mp hle)]
      exact lookupA_setA_ne m _ c _ hne

theorem mergeWinner_establishes (title : String) (p d : ℤ) (s : Bool) (coord : String)
    (m : ResMap) :
    ∃ e, lookupA (mergeWinner title p d s coord m) (winnerCode title coord) = some e ∧
      e.priority ≤ p := by
  cases hl : lookupA m (winnerCode title coord) with
  | none =>
    rw [mergeWinner_fresh hl]
    exact ⟨Winner.mk title coord p d s, lookupA_setA_self m _ _, le_refl p⟩
  | some old =>
    by_cases hle : old.priority ≤ p
    · rw [mergeWinner_keep hl hle]
      exact ⟨old, hl, hle⟩
    · rw [mergeWinner_replace hl (not_le.mp hle)]
      exact ⟨Winner.mk title coord p d s, lookupA_setA_self m _ _, le_refl p⟩

/-- Once the winner mapping holds an entry of priority at most `p` for key
`c`, it keeps holding one (states are `Option ResMap`, `Option.none` meaning a
propagating exception). -/
def PresP (c : String) (p : ℤ) (st : Option ResMap) : Prop :=
  ∀ m, st = some m → ∃ e, lookupA m c = some e ∧ e.priority ≤ p

theorem presP_mergeWinner {c : String} {p : ℤ} {m : ResMap} {e : Winner}
    (h : lookupA m c = some e) (hp : e.priority ≤ p) (title : String) (q d2 : ℤ)
    (s : Bool) (coord : String) :
    ∃ e2, lookupA (mergeWinner title q d2 s coord m) c = some e2 ∧ e2.priority ≤ p := by
  by_cases hcode : winnerCode title coord = c
  · subst hcode
    by_cases hle : e.priority ≤ q
    · rw [mergeWinner_keep h hle]
      exact ⟨e, h, hp⟩
    · rw [mergeWinner_replace h (not_le.mp hle)]
      refine ⟨Winner.mk title coord q d2 s, lookupA_setA_self _ _ _, ?_⟩
      show q ≤ p
      exact le_trans (le_of_lt (not_le.mp hle)) hp
  · rw [lookupA_mergeWinner_ne hcode]
    exact ⟨e, h, hp⟩

theorem presP_applyCell {c : String} {p : ℤ} (fo : Bool) (t : String) (r : PRule)
    (d : ℤ) (cell : PCell) {st : Option ResMap} (h : PresP c p st) :
    PresP c p (applyCell fo t r d st cell) := by
  intro m hm
  cases st with
  | none =>
    rw [applyCell_none_eq] at hm
    exact absurd hm (by simp)
  | some m0 =>
    obtain ⟨e, he, hp⟩ := h m0 rfl
    cases hev : r.eval cell with
    | refFail =>
      rw [applyCell_refFail_eq hev] at hm
      injection hm with hm2
      rw [← hm2]
      exact ⟨e, he, hp⟩
    | exc =>
      rw [applyCell_exc_eq hev] at hm
      by_cases hfo : fo = true
      · rw [if_pos hfo] at hm
        injection hm with hm2
        rw [← hm2]
        exact ⟨e, he, hp⟩
      · rw [if_neg hfo] at hm
        exact absurd hm (by simp)
    | nonBool =>
      rw [applyCell_nonBool_eq hev] at hm
      injection hm with hm2
      rw [← hm2]
      exact ⟨e, he, hp⟩
    | val b =>
      cases b with
      | false =>
        rw [applyCell_eval_false_eq hev] at hm
        injection hm with hm2
        rw [← hm2]
        exact ⟨e, he, hp⟩
      | true =>
        rw [applyCell_eval_true hev] at hm
        injection hm with hm2
        rw [← hm2]
        exact presP_mergeWinner he hp t r.priority d (r.stopIfTrue.getD false)
          cell.coordinate

theorem presP_foldl_applyCell {c : String} {p : ℤ} (fo : Bool) (t : String) (r : PRule)
    (d : ℤ) (cs : List PCell) {st : Option ResMap} (h : PresP c p st) :
    PresP c p (List.foldl (applyCell fo t r d) st cs) := by
  induction cs generalizing st with
  | nil => exact h
  | cons x xs ih =>
    rw [List.foldl_cons]
    exact ih (presP_applyCell fo t r d x h)

theorem presP_processRule {c : String} {p : ℤ} (fo : Bool) (t : String) (a : Bool)
    (cs : List PCell) (r : PRule) {st : Option ResMap} (h : PresP c p st) :
    PresP c p (processRule fo t a cs st r) := by
  cases hd : r.dxfId with
  | none =>
    rw [processRule_dxfId_none hd]
    exact h
  | some d =>
    rw [processRule_some_eq hd]
    split
    · split
      · split
        · exact presP_foldl_applyCell fo t r d cs h
        · exact h
      · exact h
    · exact h

theorem presP_foldl_processRule {c : String} {p : ℤ} (fo : Bool) (t : String) (a : Bool)
    (cs : List PCell) (rules : List PRule) {st : Option ResMap} (h : PresP c p st) :
    PresP c p (List.foldl (processRule fo t a cs) st rules) := by
  induction rules generalizing st with
  | nil => exact h
  | cons x xs ih =>
    rw [List.foldl_cons]
    exact ih (presP_processRule fo t a cs x h)

theorem presP_processGroup {c : String} {p : ℤ} (fo : Bool) (t : String) (g : PGroup)
    {st : Option ResMap} (h : PresP c p st) : PresP c p (processGroup fo t st g) := by
  unfold processGroup
  exact presP_foldl_processRule fo t g.anchorOk g.cells g.rules h

theorem presP_foldl_processGroup {c : String} {p : ℤ} (fo : Bool) (t : String)
    (gs : List PGroup) {st : Option ResMap} (h : PresP c p st) :
    PresP c p (List.foldl (processGroup fo t) st gs) := by
  induction gs generalizing st with
  | nil => exact h
  | cons x xs ih =>
    rw [List.foldl_cons]
    exact ih (presP_processGroup fo t x h)

/-- A (rule, cell) pair of a group that the engine actually evaluates to a
boolean-`True` match: the rule carries a present `dxfId` and exactly one
parseable formula, the group's anchor resolves, the cell lies in the group's
ranges, and the formula evaluates to `True` there. -/
def Matches (g : PGroup) (r : PRule) (cell : PCell) (d : ℤ) : Prop :=
  r ∈ g.rules ∧ cell ∈ g.cells ∧ r.dxfId = some d ∧ r.formulaCount = 1 ∧
    r.parseOk = true ∧ g.anchorOk = true ∧ r.eval cell = EvalOutcome.val true

/-- The winner entry is exactly the proposed style of some matching
(group, rule, cell) triple of the worksheet. -/
def FromMatch (title : String) (groups : List PGroup) (e : Winner) : Prop :=
  ∃ g r cell d, g ∈ groups ∧ Matches g r cell d ∧
    e = Winner.mk title cell.coordinate r.priority d (r.stopIfTrue.getD false)

/-- Provenance invariant: every entry of the winner mapping was written as the
proposed style of a matching (group, rule, cell) triple. -/
def GoodSt (title : String) (groups : List PGroup) (st : Option ResMap) : Prop :=
  ∀ m, st = some m → ∀ pr : String × Winner, pr ∈ m → FromMatch title groups pr.2

theorem mem_mergeWinner {title : String} {p d : ℤ} {s : Bool} {coord : String}
    {m : ResMap} {pr : String × Winner} (h : pr ∈ mergeWinner title p d s coord m) :
    pr ∈ m ∨ pr.2 = Winner.mk title coord p d s := by
  cases hl : lookupA m (winnerCode title coord) with
  | none =>
    rw [mergeWinner_fresh hl] at h
    rcases mem_setA h with h2 | h2
    · exact Or.inl h2
    · right
      rw [h2]
  | some old =>
    by_cases hle : old.priority ≤ p
    · rw [mergeWinner_keep hl hle] at h
      exact Or.inl h
    · rw [mergeWinner_replace hl (not_le.mp hle)] at h
      rcases mem_setA h with h2 | h2
      · exact Or.inl h2
      · right
        rw [h2]

theorem goodSt_applyCell {title : String} {groups : List PGroup} {g : PGroup}
    {r : PRule} {d : ℤ} (hg : g ∈ groups) (hr : r ∈ g.rules)
    (hd : r.dxfId = some d) (hf : r.formulaCount = 1) (hpk : r.parseOk = true)
    (ha : g.anchorOk = true) {cell : PCell} (hcell : cell ∈ g.cells) (fo : Bool)
    {st : Option ResMap} (h : GoodSt title groups st) :
    GoodSt title groups (applyCell fo title r d st cell) := by
  intro m hm pr hpr
  cases st with
  | none =>
    rw [applyCell_none_eq] at hm
    exact absurd hm (by simp)
  | some m0 =>
    cases hev : r.eval cell with
    | refFail =>
      rw [applyCell_refFail_eq hev] at hm
      injection hm with hm2
      exact h m0 rfl pr (hm2 ▸ hpr)
    | exc =>
      rw [applyCell_exc_eq hev] at hm
      by_cases hfo : fo = true
      · rw [if_pos hfo] at hm
        injection hm with hm2
        exact h m0 rfl pr (hm2 ▸ hpr)
      · rw [if_neg hfo] at hm
        exact absurd hm (by simp)
    | nonBool =>
      rw [applyCell_nonBool_eq hev] at hm
      injection hm with hm2
      exact h m0 rfl pr (hm2 ▸ hpr)
    | val b =>
      cases b with
      | false =>
        rw [applyCell_eval_false_eq hev] at hm
        injection hm with hm2
        exact h m0 rfl pr (hm2 ▸ hpr)
      | true =>
        rw [applyCell_eval_true hev] at hm
        injection hm with hm2
        rcases mem_mergeWinner (hm2 ▸ hpr) with h2 | h2
        · exact h m0 rfl pr h2
        · exact ⟨g, r, cell, d, hg, ⟨hr, hcell, hd, hf, hpk, ha, hev⟩, h2⟩

theorem goodSt_foldl_applyCell {title : String} {groups : List PGroup} {g : PGroup}
    {r : PRule} {d : ℤ} (hg : g ∈ groups) (hr : r ∈ g.rules)
    (hd : r.dxfId = some d) (hf : r.formulaCount = 1) (hpk : r.parseOk = true)
    (ha : g.anchorOk = true) (fo : Bool) (cs : List PCell)
    (hcs : ∀ x ∈ cs, x ∈ g.cells) {st : Option ResMap}
    (h : GoodSt title groups st) :
    GoodSt title groups (List.foldl (applyCell fo title r d) st cs) := by
  induction cs generalizing st with
  | nil => exact h
  | cons x xs ih =>
    rw [List.foldl_cons]
    exact ih (fun y hy => hcs y (List.mem_cons_of_mem x hy))
      (goodSt_applyCell hg hr hd hf hpk ha (hcs x (List.mem_cons_self x xs)) fo h)

theorem goodSt_processRule {title : String} {groups : List PGroup} {g : PGroup}
    {r : PRule} (hg : g ∈ groups) (hr : r ∈ g.rules) (fo : Bool)
    {st : Option ResMap} (h : GoodSt title groups st) :
    GoodSt title groups (processRule fo title g.anchorOk g.cells st r) := by
  cases hd : r.dxfId with
  | none =>
    rw [processRule_dxfId_none hd]
    exact h
  | some d =>
    rw [processRule_some_eq hd]
    split
    · split
      · split
        · rename_i hf hpk ha
          exact goodSt_foldl_applyCell hg hr hd hf hpk ha fo g.cells (fun _ hx => hx) h
        · exact h
      · exact h
    · exact h

theorem goodSt_foldl_processRule {title : String} {groups : List PGroup} {g : PGroup}
    (hg : g ∈ groups) (fo : Bool) (rules : List PRule)
    (hrs : ∀ r ∈ rules, r ∈ g.rules) {st : Option ResMap}
    (h : GoodSt title groups st) :
    GoodSt title groups
      (List.foldl (processRule fo title g.anchorOk g.cells) st rules) := by
  induction rules generalizing st with
  | nil => exact h
  | cons x xs ih =>
    rw [List.foldl_cons]
    exact ih (fun y hy => hrs y (List.mem_cons_of_mem x hy))
      (goodSt_processRule hg (hrs x (List.mem_cons_self x xs)) fo h)

theorem goodSt_processGroup {title : String} {groups : List PGroup} {g : PGroup}
    (hg : g ∈ groups) (fo : Bool) {st : Option ResMap}
    (h : GoodSt title groups st) :
    GoodSt title groups (processGroup fo title st g) := by
  unfold processGroup
  exact goodSt_foldl_processRule hg fo g.rules (fun _ hx => hx) h

theorem goodSt_foldl_processGroup {title : String} {groups : List PGroup} (fo : Bool)
    (gs : List PGroup) (hgs : ∀ g ∈ gs, g ∈ groups) {st : Option ResMap}
    (h : GoodSt title groups st) :
    GoodSt title groups (List.foldl (processGroup fo title) st gs) := by
  induction gs generalizing st with
  | nil => exact h
  | cons x xs ih =>
    rw [List.foldl_cons]
    exact ih (fun y hy => hgs y (List.mem_cons_of_mem x hy))
      (goodSt_processGroup (hgs x (List.mem_cons_self x xs)) fo h)

theorem goodSt_process (title : String) (groups : List PGroup) (fo : Bool) :
    GoodSt title groups (process title groups fo) := by
  unfold process
  apply goodSt_foldl_processGroup fo groups (fun _ hx => hx)
  intro m hm pr hpr
  injection hm with hm2
  rw [← hm2] at hpr
  exact absurd hpr (by simp)

/-- C2: once a rule with `stopIfTrue` set matches a cell, the cell's final
winner entry exists, has priority at most that rule's priority, and is the
proposed style of some matching rule of priority at most that rule's priority
— so no rule of lower precedence (strictly greater priority number)
contributes any effect to that cell's entry in the final winner mapping. -/
theorem c2_stop_rule_blocks_lower_precedence :
    ∀ (title : String) (groups : List PGroup) (fail_ok : Bool) (g : PGroup)
      (r : PRule) (cell : PCell) (d : ℤ) (m : ResMap),
      g ∈ groups → Matches g r cell d → r.stopIfTrue = some true →
      process title groups fail_ok = some m →
      ∃ e, lookupA m (winnerCode title cell.coordinate) = some e ∧
        e.priority ≤ r.priority ∧
        ∃ g2 r2 cell2 d2, g2 ∈ groups ∧ Matches g2 r2 cell2 d2 ∧
          r2.priority ≤ r.priority ∧
          e = Winner.mk title cell2.coordinate r2.priority d2
                (r2.stopIfTrue.getD false) := by
  intro title groups fail_ok g r cell d m hg hmatch hstop hp
  obtain ⟨hr, hcell, hd, hf, hpk, ha, hev⟩ := hmatch
  obtain ⟨gs1, gs2, hgroups⟩ := List.append_of_mem hg
  obtain ⟨rs1, rs2, hrules⟩ := List.append_of_mem hr
  obtain ⟨cs1, cs2, hcells⟩ := List.append_of_mem hcell
  subst hgroups
  have hproc : process title (gs1 ++ g :: gs2) fail_ok =
      List.foldl (processGroup fail_ok title)
        (processGroup fail_ok title
          (List.foldl (processGroup fail_ok title) (some []) gs1) g) gs2 := by
    unfold process
    rw [List.foldl_append, List.foldl_cons]
  set st1 := List.foldl (processGroup fail_ok title) (some []) gs1 with hst1
  have hpg : processGroup fail_ok title st1 g =
      List.foldl (processRule fail_ok title g.anchorOk g.cells)
        (processRule fail_ok title g.anchorOk g.cells
          (List.foldl (processRule fail_ok title g.anchorOk g.cells) st1 rs1) r)
        rs2 := by
    unfold processGroup
    rw [hrules, List.foldl_append, List.foldl_cons]
  set st2 := List.foldl (processRule fail_ok title g.anchorOk g.cells) st1 rs1
    with hst2
  have hpr2 : processRule fail_ok title g.anchorOk g.cells st2 r =
      List.foldl (applyCell fail_ok title r d) st2 g.cells := by
    rw [processRule_some_eq hd, if_pos hf, if_pos hpk, if_pos ha]
  have hcellsfold : List.foldl (applyCell fail_ok title r d) st2 g.cells =
      List.foldl (applyCell fail_ok title r d)
        (applyCell fail_ok title r d
          (List.foldl (applyCell fail_ok title r d) st2 cs1) cell) cs2 := by
    rw [hcells, List.foldl_append, List.foldl_cons]
  set st3 := List.foldl (applyCell fail_ok title r d) st2 cs1 with hst3
  cases hst3v : st3 with
  | none =>
    exfalso
    have hnone : process title (gs1 ++ g :: gs2) fail_ok = Option.none := by
      rw [hproc, hpg, hpr2, hcellsfold, hst3v, applyCell_none_eq,
        foldl_applyCell_none, foldl_processRule_none, foldl_processGroup_none]
    rw [hnone] at hp
    exact absurd hp (by simp)
  | some m3 =>
    have hstep : applyCell fail_ok title r d st3 cell =
        some (mergeWinner title r.priority d (r.stopIfTrue.getD false)
          cell.coordinate m3) := by
      rw [hst3v]
      exact applyCell_eval_true hev fail_ok title d m3
    have hpres0 : PresP (winnerCode title cell.coordinate) r.priority
        (applyCell fail_ok title r d st3 cell) := by
      rw [hstep]
      intro mm hmm
      injection hmm with hmm2
      rw [← hmm2]
      exact mergeWinner_establishes title r.priority d (r.stopIfTrue.getD false)
        cell.coordinate m3
    have hpres1 := presP_foldl_applyCell fail_ok title r d cs2 hpres0
    have hpres2 : PresP (winnerCode title cell.coordinate) r.priority
        (processRule fail_ok title g.anchorOk g.cells st2 r) := by
      rw [hpr2, hcellsfold]
      exact hpres1
    have hpres3 := presP_foldl_processRule fail_ok title g.anchorOk g.cells rs2 hpres2
    have hpres4 : PresP (winnerCode title cell.coordinate) r.priority
        (processGroup fail_ok title st1 g) := by
      rw [hpg]
      exact hpres3
    have hpres5 := presP_foldl_processGroup fail_ok title gs2 hpres4
    have hpres6 : PresP (winnerCode title cell.coordinate) r.priority
        (process title (gs1 ++ g :: gs2) fail_ok) := by
      rw [hproc]
      exact hpres5
    obtain ⟨e, he, hep⟩ := hpres6 m hp
    have hgood := goodSt_process title (gs1 ++ g :: gs2) fail_ok m hp
      (winnerCode title cell.coordinate, e) (lookupA_mem he)
    obtain ⟨g2, r2, cell2, d2, hg2, hm2, he2⟩ := hgood
    have he3 : e = Winner.mk title cell2.coordinate r2.priority d2
        (r2.stopIfTrue.getD false) := he2
    refine ⟨e, he, hep, g2, r2, cell2, d2, hg2, hm2, ?_, he3⟩
    have hpe : e.priority = r2.priority := by rw [he3]
    rw [← hpe]
    exact hep

/-- Concrete stop-if-true rule used by the C2 witness. -/
def ruleStop : PRule := PRule.mk (some 7) 3 (some true) 1 true alwaysTrue

/-- Concrete one-rule group used by the C2 witness. -/
def groupStop : PGroup := PGroup.mk [ruleStop] true [cellA1]

theorem c2_stop_rule_blocks_lower_precedence_witness :
    ∃ e, lookupA [("S\\!A1", Winner.mk "S" "A1" 3 7 true)]
        (winnerCode "S" cellA1.coordinate) = some e ∧
      e.priority ≤ ruleStop.priority ∧
      ∃ g2 r2 cell2 d2, g2 ∈ [groupStop] ∧ Matches g2 r2 cell2 d2 ∧
        r2.priority ≤ ruleStop.priority ∧
        e = Winner.mk "S" cell2.coordinate r2.priority d2
              (r2.stopIfTrue.getD false) :=
  c2_stop_rule_blocks_lower_precedence "S" [groupStop] true groupStop ruleStop
    cellA1 7 [("S\\!A1", Winner.mk "S" "A1" 3 7 true)]
    (List.mem_singleton.mpr rfl)
    ⟨List.mem_singleton.mpr rfl, List.mem_singleton.mpr rfl, rfl, rfl, rfl, rfl, rfl⟩
    rfl (by decide)

theorem tint_luminance_none_eq (lum : ℚ) :
    tint_luminance Option.none lum = pyRound lum := rfl

theorem tint_luminance_neg_eq {t : ℚ} (ht : t < 0) (lum : ℚ) :
    tint_luminance (some t) lum = pyRound (lum * (1 + t)) := by
  show pyRound (if t < 0 then lum * (1 + t)
    else lum * (1 - t) + (HLSMAX - HLSMAX * (1 - t))) = pyRound (lum * (1 + t))
  rw [if_pos ht]

theorem tint_luminance_nonneg_eq {t : ℚ} (ht : ¬ t < 0) (lum : ℚ) :
    tint_luminance (some t) lum =
      pyRound (lum * (1 - t) + (240 - 240 * (1 - t))) := by
  show pyRound (if t < 0 then lum * (1 + t)
    else lum * (1 - t) + (HLSMAX - HLSMAX * (1 - t))) =
    pyRound (lum * (1 - t) + (240 - 240 * (1 - t)))
  rw [if_neg ht]
  show pyRound (lum * (1 - t) + ((240 : ℚ) - 240 * (1 - t))) = _
  rfl

/-- C6 counterexample: `tint_luminance(None, L) == L` fails for the
non-integral luminance `L = 0.5` — Python's banker's rounding gives
`round(0.5) = 0`, and `0 != 0.5`. -/
theorem c6_none_tint_identity_counterexample :
    tint_luminance Option.none (1/2) = 0 ∧ ((0 : ℚ) ≠ 1/2) := by
  constructor
  · rw [tint_luminance_none_eq]
    have hfl : ⌊(1:ℚ)/2⌋ = 0 := by norm_num
    unfold pyRound
    rw [hfl]
    norm_num
  · norm_num

/-- C6 (amended): `tint_luminance(None, L) == L` for every integer luminance
`L` (for fractional `L` the result is the rounded value); for every tint
`t ∈ (-1, 1)` and luminance `L ∈ [0, 240]` the tinted luminance stays within
`[0, 240]`; and the result is computed as `round(L*(1+t))` for `t < 0` and as
`round(L*(1-t) + (240 - 240*(1-t)))` otherwise. -/
theorem c6_tint_luminance_laws :
    (∀ L : ℤ, tint_luminance Option.none (L : ℚ) = L) ∧
    (∀ t L : ℚ, -1 < t → t < 1 → 0 ≤ L → L ≤ 240 →
      0 ≤ tint_luminance (some t) L ∧ tint_luminance (some t) L ≤ 240) ∧
    (∀ t L : ℚ, t < 0 → tint_luminance (some t) L = pyRound (L * (1 + t))) ∧
    (∀ t L : ℚ, ¬ t < 0 →
      tint_luminance (some t) L = pyRound (L * (1 - t) + (240 - 240 * (1 - t)))) := by
  refine ⟨?_, ?_, ?_, ?_⟩
  · intro L
    rw [tint_luminance_none_eq, pyRound_intCast]
  · intro t L h1 h2 h3 h4
    by_cases ht : t < 0
    · rw [tint_luminance_neg_eq ht]
      have hx0 : 0 ≤ L * (1 + t) := mul_nonneg h3 (by linarith)
      have hx1 : L * (1 + t) ≤ ((240 : ℤ) : ℚ) := by
        push_cast
        nlinarith
      exact ⟨pyRound_nonneg hx0, pyRound_le_of_le hx1⟩
    · rw [tint_luminance_nonneg_eq ht]
      have hkey : L * (1 - t) + (240 - 240 * (1 - t)) = 240 - (240 - L) * (1 - t) := by
        ring
      have hb0 : 0 ≤ (240 - L) * (1 - t) := mul_nonneg (by linarith) (by linarith)
      have hb1 : (240 - L) * (1 - t) ≤ 240 - L :=
        mul_le_of_le_one_right (by linarith) (by linarith)
      have hx0 : 0 ≤ L * (1 - t) + (240 - 240 * (1 - t)) := by
        rw [hkey]
        linarith
      have hx1 : L * (1 - t) + (240 - 240 * (1 - t)) ≤ ((240 : ℤ) : ℚ) := by
        rw [hkey]
        push_cast
        linarith
      exact ⟨pyRound_nonneg hx0, pyRound_le_of_le hx1⟩
  · intro t L ht
    exact tint_luminance_neg_eq ht L
  · intro t L ht
    exact tint_luminance_nonneg_eq ht L

theorem c6_tint_luminance_laws_witness :
    tint_luminance Option.none ((5 : ℤ) : ℚ) = 5 ∧
    (0 ≤ tint_luminance (some (1/2)) 100 ∧ tint_luminance (some (1/2)) 100 ≤ 240) ∧
    tint_luminance (some (-(1/2))) 100 = pyRound (100 * (1 + -(1/2))) ∧
    tint_luminance (some (1/2)) 100 =
      pyRound (100 * (1 - 1/2) + (240 - 240 * (1 - 1/2))) :=
  ⟨c6_tint_luminance_laws.1 5,
   c6_tint_luminance_laws.2.1 (1/2) 100 (by norm_num) (by norm_num) (by norm_num)
     (by norm_num),
   c6_tint_luminance_laws.2.2.1 (-(1/2)) 100 (by norm_num),
   c6_tint_luminance_laws.2.2.2 (1/2) 100 (by norm_num)⟩

deriving instance DecidableEq for Except

/-- C10: for a color whose `type` is none of `"theme"`, `"rgb"`, `"indexed"`,
and for an `"rgb"`-typed color whose `rgb` attribute is not a string, the
resolver returns `None` without raising and without substituting the sentinel,
and consequently `CssBuilder.font_color` and `CssBuilder.background_color`
return `None`, emitting no CSS declaration. -/
theorem c10_invalid_color_yields_no_declaration :
    ∀ (palette : List String) (color : PyColor) (is_important : Bool),
      ((color.type ≠ "theme" ∧ color.type ≠ "rgb" ∧ color.type ≠ "indexed") ∨
        (color.type = "rgb" ∧ ∀ s, color.rgb ≠ PyVal.str s)) →
      get_css_color palette color = Except.ok Option.none ∧
      font_color (get_css_color palette) color is_important = Except.ok Option.none ∧
      background_color (get_css_color palette) color is_important =
        Except.ok Option.none := by
  intro palette color is_important hcase
  have hres : get_css_color palette color = Except.ok Option.none := by
    rcases hcase with ⟨h1, h2, h3⟩ | ⟨h1, hns⟩
    · simp [get_css_color, h1, h2, h3]
    · have hne1 : color.type ≠ "theme" := by rw [h1]; decide
      have hne3 : color.type ≠ "indexed" := by rw [h1]; decide
      cases hrgb : color.rgb with
      | str s => exact absurd hrgb (hns s)
      | int n => simp [get_css_color, hne1, h1, hne3, hrgb]
      | float q => simp [get_css_color, hne1, h1, hne3, hrgb]
      | bool b => simp [get_css_color, hne1, h1, hne3, hrgb]
      | none => simp [get_css_color, hne1, h1, hne3, hrgb]
  refine ⟨hres, ?_, ?_⟩
  · unfold font_color
    rw [hres]
  · unfold background_color
    rw [hres]

theorem c10_invalid_color_witness :
    (get_css_color ["FFFFFF", "000000"] (PyColor.mk "auto" PyVal.none 0 PyVal.none 0) =
        Except.ok Option.none ∧
      font_color (get_css_color ["FFFFFF", "000000"])
          (PyColor.mk "auto" PyVal.none 0 PyVal.none 0) false = Except.ok Option.none ∧
      background_color (get_css_color ["FFFFFF", "000000"])
          (PyColor.mk "auto" PyVal.none 0 PyVal.none 0) false = Except.ok Option.none) ∧
    (get_css_color ["FFFFFF", "000000"]
          (PyColor.mk "rgb" PyVal.none 0 (PyVal.int 5) 0) = Except.ok Option.none ∧
      font_color (get_css_color ["FFFFFF", "000000"])
          (PyColor.mk "rgb" PyVal.none 0 (PyVal.int 5) 0) true = Except.ok Option.none ∧
      background_color (get_css_color ["FFFFFF", "000000"])
          (PyColor.mk "rgb" PyVal.none 0 (PyVal.int 5) 0) true = Except.ok Option.none) :=
  ⟨c10_invalid_color_yields_no_declaration ["FFFFFF", "000000"]
      (PyColor.mk "auto" PyVal.none 0 PyVal.none 0) false
      (Or.inl (by refine ⟨?_, ?_, ?_⟩ <;> decide)),
   c10_invalid_color_yields_no_declaration ["FFFFFF", "000000"]
      (PyColor.mk "rgb" PyVal.none 0 (PyVal.int 5) 0) true
      (Or.inr ⟨rfl, fun s h => PyVal.noConfusion h⟩)⟩

theorem colorIndexEntry_ok :
    ∀ n : ℕ, n < 64 →
      COLOR_INDEX[n]?.getD "" ≠ "" ∧ isARGBHex (COLOR_INDEX[n]?.getD "") = true := by
  decide

/-- C8: against palette `["112233", "AABBCC"]`, indexed color 64 resolves to
`"AABBCC"` (palette entry 1, window text) and indexed 65 to `"112233"`
(palette entry 0, window); an indexed color with `0 < i < 64` resolves to the
fixed 64-entry legacy `COLOR_INDEX` palette entry `i`, and any other index
resolves to the sentinel `"00000000"`. -/
theorem c8_indexed_color_resolution :
    (create_themed_css_color_resolver (some ["112233", "AABBCC"])
        (PyColor.mk "indexed" PyVal.none 0 PyVal.none 64) =
      Except.ok (some "AABBCC")) ∧
    (create_themed_css_color_resolver (some ["112233", "AABBCC"])
        (PyColor.mk "indexed" PyVal.none 0 PyVal.none 65) =
      Except.ok (some "112233")) ∧
    (∀ (palette : List String) (color : PyColor) (i : ℤ),
      color.type = "indexed" → color.indexed = i → 0 < i → i < 64 →
      get_css_color palette color = Except.ok (some (COLOR_INDEX.getD i.toNat ""))) ∧
    (∀ (palette : List String) (color : PyColor) (i : ℤ),
      color.type = "indexed" → color.indexed = i → (i ≤ 0 ∨ 65 < i) →
      get_css_color palette color = Except.ok (some "00000000")) := by
  refine ⟨by decide, by decide, ?_, ?_⟩
  · intro palette color i h1 h2 h3 h4
    have hne1 : color.type ≠ "theme" := by rw [h1]; decide
    have hne2 : color.type ≠ "rgb" := by rw [h1]; decide
    have htn : i.toNat < 64 := by omega
    have hok := colorIndexEntry_ok i.toNat htn
    simp [get_css_color, hne1, hne2, h1, h2, h3, h4, hok.1, hok.2]
  · intro palette color i h1 h2 hcase
    have hne1 : color.type ≠ "theme" := by rw [h1]; decide
    have hne2 : color.type ≠ "rgb" := by rw [h1]; decide
    rcases hcase with h3 | h3
    · have hnpos : ¬ 0 < i := by omega
      simp [get_css_color, hne1, hne2, h1, h2, hnpos]
    · have hpos : 0 < i := by omega
      have hn64 : ¬ i < 64 := by omega
      have hne64 : i ≠ 64 := by omega
      have hne65 : i ≠ 65 := by omega
      simp [get_css_color, hne1, hne2, h1, h2, hpos, hn64, hne64, hne65]

theorem c8_indexed_color_resolution_witness :
    (get_css_color ["112233", "AABBCC"]
        (PyColor.mk "indexed" PyVal.none 0 PyVal.none 2) =
      Except.ok (some (COLOR_INDEX.getD (2 : ℤ).toNat ""))) ∧
    (get_css_color ["112233", "AABBCC"]
        (PyColor.mk "indexed" PyVal.none 0 PyVal.none 0) =
      Except.ok (some "00000000")) ∧
    (get_css_color ["112233", "AABBCC"]
        (PyColor.mk "indexed" PyVal.none 0 PyVal.none 99) =
      Except.ok (some "00000000")) :=
  ⟨c8_indexed_color_resolution.2.2.1 ["112233", "AABBCC"]
      (PyColor.mk "indexed" PyVal.none 0 PyVal.none 2) 2 rfl rfl (by decide) (by decide),
   c8_indexed_color_resolution.2.2.2 ["112233", "AABBCC"]
      (PyColor.mk "indexed" PyVal.none 0 PyVal.none 0) 0 rfl rfl (Or.inl (by decide)),
   c8_indexed_color_resolution.2.2.2 ["112233", "AABBCC"]
      (PyColor.mk "indexed" PyVal.none 0 PyVal.none 99) 99 rfl rfl (Or.inr (by decide))⟩

theorem pyRound_eq_down {x : ℚ} {n : ℤ} (hfl : ⌊x⌋ = n) (h2 : x - n < 1/2) :
    pyRound x = n := by
  unfold pyRound
  rw [hfl, if_pos h2]

theorem pyRound_eq_up {x : ℚ} {n : ℤ} (hfl : ⌊x⌋ = n) (h2 : 1/2 < x - n) :
    pyRound x = n + 1 := by
  unfold pyRound
  rw [hfl, if_neg (by linarith), if_pos h2]

theorem argb_0E2841_parse : argb_to_ms_hls "0E2841" =
    Except.ok (rgb_to_ms_hls (((14 : ℕ) : ℚ) / 255) (((40 : ℕ) : ℚ) / 255)
      (((65 : ℕ) : ℚ) / 255)) := by
  rfl

theorem rgb_to_hls_0E2841 :
    rgb_to_hls (((14 : ℕ) : ℚ) / 255) (((40 : ℕ) : ℚ) / 255) (((65 : ℕ) : ℚ) / 255) =
      (89/153, 79/510, 51/79) := by
  unfold rgb_to_hls
  norm_num [max_def, min_def, pyMod1]

theorem rgb_to_ms_hls_eq (red green blue : ℚ) :
    rgb_to_ms_hls red green blue =
      (pyRound ((rgb_to_hls red green blue).1 * HLSMAX),
       pyRound ((rgb_to_hls red green blue).2.1 * HLSMAX),
       pyRound ((rgb_to_hls red green blue).2.2 * HLSMAX)) := rfl

theorem rgb_to_ms_hls_0E2841 :
    rgb_to_ms_hls (((14 : ℕ) : ℚ) / 255) (((40 : ℕ) : ℚ) / 255) (((65 : ℕ) : ℚ) / 255) =
      (140, 37, 155) := by
  rw [rgb_to_ms_hls_eq, rgb_to_hls_0E2841]
  have p1 : pyRound ((89 : ℚ)/153 * HLSMAX) = 140 := by
    rw [pyRound_eq_up (x := (89 : ℚ)/153 * HLSMAX) (n := 139) (by norm_num [HLSMAX])
      (by norm_num [HLSMAX])]
    decide
  have p2 : pyRound ((79 : ℚ)/510 * HLSMAX) = 37 :=
    pyRound_eq_down (by norm_num [HLSMAX]) (by norm_num [HLSMAX])
  have p3 : pyRound ((51 : ℚ)/79 * HLSMAX) = 155 := by
    rw [pyRound_eq_up (x := (51 : ℚ)/79 * HLSMAX) (n := 154) (by norm_num [HLSMAX])
      (by norm_num [HLSMAX])]
    decide
  simp [p1, p2, p3]

theorem argb_0E2841_eq : argb_to_ms_hls "0E2841" = Except.ok (140, 37, 155) := by
  rw [argb_0E2841_parse, rgb_to_ms_hls_0E2841]

theorem tint_example_A : tint_luminance (some (0.749992370372631 : ℚ)) 37 = 189 := by
  rw [tint_luminance_nonneg_eq (by norm_num)]
  exact pyRound_eq_down (by norm_num) (by norm_num)

theorem ms_hls_example_A : ms_hls_to_rgb 140 189 155 = (2497/3840, 63/80, 3551/3840) := by
  unfold ms_hls_to_rgb hls_to_rgb
  norm_num [HLSMAX, colorsysV, pyMod1]

theorem rgb_to_hex_example_A : rgb_to_hex (2497/3840) (63/80) (3551/3840) = "A6C9EC" := by
  have e1 : pyRound ((2497 : ℚ)/3840 * RGBMAX) = 166 := by
    rw [pyRound_eq_up (x := (2497 : ℚ)/3840 * RGBMAX) (n := 165) (by norm_num [RGBMAX])
      (by norm_num [RGBMAX])]
    decide
  have e2 : pyRound ((63 : ℚ)/80 * RGBMAX) = 201 := by
    rw [pyRound_eq_up (x := (63 : ℚ)/80 * RGBMAX) (n := 200) (by norm_num [RGBMAX])
      (by norm_num [RGBMAX])]
    decide
  have e3 : pyRound ((3551 : ℚ)/3840 * RGBMAX) = 236 := by
    rw [pyRound_eq_up (x := (3551 : ℚ)/3840 * RGBMAX) (n := 235) (by norm_num [RGBMAX])
      (by norm_num [RGBMAX])]
    decide
  unfold rgb_to_hex
  rw [e1, e2, e3]
  decide

/-- Concrete theme color of the spec's Example A: palette entry `"0E2841"`
with tint `0.749992370372631`. -/
def themeColorA : PyColor :=
  PyColor.mk "theme" (PyVal.int 0) 0.749992370372631 PyVal.none 0

/-- C7: a theme color with an index outside `[0, len(palette))` resolves to
the sentinel `"00000000"`; with tint `0` it resolves to `"00"` prefixed to the
base palette entry; and the tinted pipeline resolves base `"0E2841"` with tint
`0.749992370372631` to `"00A6C9EC"` (via HLS `(140, 37, 155)` and tinted
luminance `189`). -/
theorem c7_theme_color_resolution :
    (∀ (palette : List String) (color : PyColor) (v : ℤ),
      color.type = "theme" → color.value = PyVal.int v →
      ¬ (0 ≤ v ∧ v < (palette.length : ℤ)) →
      get_css_color palette color = Except.ok (some "00000000")) ∧
    (∀ (palette : List String) (color : PyColor) (v : ℤ),
      color.type = "theme" → color.value = PyVal.int v →
      (0 ≤ v ∧ v < (palette.length : ℤ)) → color.tint = 0 →
      get_css_color palette color =
        Except.ok (some ("00" ++ palette.getD v.toNat ""))) ∧
    (get_css_color ["0E2841", "000000"] themeColorA = Except.ok (some "00A6C9EC")) := by
  refine ⟨?_, ?_, ?_⟩
  · intro palette color v h1 hv hnin
    have hne3 : color.type ≠ "indexed" := by rw [h1]; decide
    simp [get_css_color, h1, hv, hnin, hne3]
  · intro palette color v h1 hv hin htint
    have hne3 : color.type ≠ "indexed" := by rw [h1]; decide
    simp [get_css_color, h1, hv, hin, htint, hne3]
  · have htint : ¬ ((0.749992370372631 : ℚ) = 0) := by norm_num
    simp [get_css_color, themeColorA, htint, argb_0E2841_eq, tint_example_A,
      ms_hls_example_A, rgb_to_hex_example_A]

theorem c7_theme_color_resolution_witness :
    (get_css_color ["0E2841", "000000"]
        (PyColor.mk "theme" (PyVal.int 5) 0 PyVal.none 0) =
      Except.ok (some "00000000")) ∧
    (get_css_color ["0E2841", "000000"]
        (PyColor.mk "theme" (PyVal.int 1) 0 PyVal.none 0) =
      Except.ok (some ("00" ++ ["0E2841", "000000"].getD (1 : ℤ).toNat ""))) :=
  ⟨c7_theme_color_resolution.1 ["0E2841", "000000"]
      (PyColor.mk "theme" (PyVal.int 5) 0 PyVal.none 0) 5 rfl rfl (by decide),
   c7_theme_color_resolution.2.1 ["0E2841", "000000"]
      (PyColor.mk "theme" (PyVal.int 1) 0 PyVal.none 0) 1 rfl rfl (by decide) rfl⟩

theorem strLt_irrefl (x : List Char) : strLt x x = false := by
  induction x with
  | nil => rfl
  | cons a as ih =>
    simp only [strLt, if_neg (lt_irrefl a)]
    exact ih

theorem strLt_asymm (x : List Char) : ∀ y, strLt x y = true → strLt y x = false := by
  induction x with
  | nil =>
    intro y h
    cases y with
    | nil => simp [strLt] at h
    | cons b bs => simp [strLt]
  | cons a as ih =>
    intro y h
    cases y with
    | nil => simp [strLt] at h
    | cons b bs =>
      simp only [strLt] at h ⊢
      by_cases hab : a < b
      · rw [if_neg (lt_asymm hab), if_pos hab]
      · rw [if_neg hab] at h
        by_cases hba : b < a
        · rw [if_pos hba] at h
          simp at h
        · rw [if_neg hba] at h
          rw [if_neg hba, if_neg hab]
          exact ih bs h

theorem strLt_conn (x : List Char) : ∀ y, strLt x y = false → strLt y x = false → x = y := by
  induction x with
  | nil =>
    intro y h1 h2
    cases y with
    | nil => rfl
    | cons b bs => simp [strLt] at h1
  | cons a as ih =>
    intro y h1 h2
    cases y with
    | nil => simp [strLt] at h2
    | cons b bs =>
      simp only [strLt] at h1 h2
      by_cases hab : a < b
      · rw [if_pos hab] at h1
        simp at h1
      · by_cases hba : b < a
        · rw [if_pos hba] at h2
          simp at h2
        · rw [if_neg hab, if_neg hba] at h1
          rw [if_neg hba, if_neg hab] at h2
          have hchar : a = b := le_antisymm (not_lt.mp hba) (not_lt.mp hab)
          rw [hchar, ih bs h1 h2]

theorem strLt_trans (x : List Char) :
    ∀ y z, strLt x y = true → strLt y z = true → strLt x z = true := by
  induction x with
  | nil =>
    intro y z h1 h2
    cases y with
    | nil => simp [strLt] at h1
    | cons b bs =>
      cases z with
      | nil => simp [strLt] at h2
      | cons c cs => simp [strLt]
  | cons a as ih =>
    intro y z h1 h2
    cases y with
    | nil => simp [strLt] at h1
    | cons b bs =>
      cases z with
      | nil => simp [strLt] at h2
      | cons c cs =>
        simp only [strLt] at h1 h2 ⊢
        by_cases hab : a < b
        · by_cases hbc : b < c
          · rw [if_pos (lt_trans hab hbc)]
          · by_cases hcb : c < b
            · rw [if_neg hbc, if_pos hcb] at h2
              simp at h2
            · have hbec : b = c := le_antisymm (not_lt.mp hcb) (not_lt.mp hbc)
              rw [if_pos (hbec ▸ hab)]
        · rw [if_neg hab] at h1
          by_cases hba : b < a
          · rw [if_pos hba] at h1
            simp at h1
          · rw [if_neg hba] at h1
            have haeb : a = b := le_antisymm (not_lt.mp hba) (not_lt.mp hab)
            subst haeb
            by_cases hac : a < c
            · rw [if_pos hac]
            · by_cases hca : c < a
              · rw [if_neg hac, if_pos hca] at h2
                simp at h2
              · rw [if_neg hac, if_neg hca] at h2
                rw [if_neg hac, if_neg hca]
                exact ih bs cs h1 h2

theorem strLt_resolve {x y : List Char} (h : strLt x y = false) :
    strLt y x = true ∨ x = y := by
  cases h2 : strLt y x with
  | true => exact Or.inl rfl
  | false => exact Or.inr (strLt_conn x y h h2)

theorem strLt_trans_false {x y z : List Char} (h1 : strLt x y = false)
    (h2 : strLt y z = false) : strLt x z = false := by
  cases hxz : strLt x z with
  | false => rfl
  | true =>
    exfalso
    rcases strLt_resolve h1 with hyx | rfl
    · have := strLt_trans y x z hyx hxz
      rw [h2] at this
      exact Bool.noConfusion this
    · rw [hxz] at h2
      exact Bool.noConfusion h2

theorem pairLe_eq (a b : String × String) :
    pairLe a b =
      (strLt a.1.data b.1.data ||
        (!(strLt b.1.data a.1.data) && !(strLt b.2.data a.2.data))) := by
  unfold pairLe
  cases h1 : strLt a.1.data b.1.data <;> cases h2 : strLt b.1.data a.1.data <;> simp

theorem pairLe_total (a b : String × String) :
    pairLe a b = false → pairLe b a = true := by
  intro h
  rw [pairLe_eq] at h ⊢
  cases h1 : strLt a.1.data b.1.data with
  | true =>
    rw [h1] at h
    simp at h
  | false =>
    rw [h1] at h
    simp only [Bool.false_or] at h
    cases h2 : strLt b.1.data a.1.data with
    | true => simp
    | false =>
      rw [h2] at h
      simp at h
      simp
      exact strLt_asymm _ _ h

theorem pairLe_antisymm (a b : String × String) (h1 : pairLe a b = true)
    (h2 : pairLe b a = true) : a = b := by
  rw [pairLe_eq] at h1 h2
  cases hk1 : strLt a.1.data b.1.data with
  | true =>
    rw [hk1, strLt_asymm _ _ hk1] at h2
    simp at h2
  | false =>
    cases hk2 : strLt b.1.data a.1.data with
    | true =>
      rw [hk2, strLt_asymm _ _ hk2] at h1
      simp at h1
    | false =>
      rw [hk1, hk2] at h1 h2
      simp at h1 h2
      have hkey : a.1 = b.1 := String.ext (strLt_conn _ _ hk1 hk2)
      have hval : a.2 = b.2 := String.ext (strLt_conn _ _ h2 h1)
      exact Prod.ext hkey hval

theorem pairLe_trans (a b c : String × String) (h1 : pairLe a b = true)
    (h2 : pairLe b c = true) : pairLe a c = true := by
  rw [pairLe_eq] at h1 h2 ⊢
  cases hab : strLt a.1.data b.1.data with
  | true =>
    cases hbc : strLt b.1.data c.1.data with
    | true =>
      rw [strLt_trans _ _ _ hab hbc]
      simp
    | false =>
      rw [hbc] at h2
      simp at h2
      have hk : b.1.data = c.1.data := strLt_conn _ _ hbc h2.1
      rw [← hk, hab]
      simp
  | false =>
    rw [hab] at h1
    simp at h1
    cases hbc : strLt b.1.data c.1.data with
    | true =>
      have hk : a.1.data = b.1.data := strLt_conn _ _ hab h1.1
      rw [hk, hbc]
      simp
    | false =>
      rw [hbc] at h2
      simp at h2
      have hk1 : a.1.data = b.1.data := strLt_conn _ _ hab h1.1
      have hk2 : b.1.data = c.1.data := strLt_conn _ _ hbc h2.1
      rw [hk1, hk2, strLt_irrefl]
      simp
      exact strLt_trans_false h2.2 h1.2

theorem mem_pyInsert {α : Type} (le : α → α → Bool) (x : α) (l : List α) {z : α} :
    z ∈ pyInsert le x l → z = x ∨ z ∈ l := by
  induction l with
  | nil =>
    intro h
    simp [pyInsert] at h
    exact Or.inl h
  | cons y ys ih =>
    intro h
    by_cases hxy : le x y = true
    · simp only [pyInsert, if_pos hxy, List.mem_cons] at h
      rcases h with h | h
      · exact Or.inl h
      · right
        simp [List.mem_cons, h]
    · simp only [pyInsert, if_neg hxy, List.mem_cons] at h
      rcases h with h | h
      · right
        simp [h]
      · rcases ih h with h2 | h2
        · exact Or.inl h2
        · right
          simp [h2]

theorem sorted_pyInsert {α : Type} (le : α → α → Bool)
    (htrans : ∀ a b c, le a b = true → le b c = true → le a c = true)
    (htotal : ∀ a b, le a b = false → le b a = true) (x : α) (l : List α) :
    List.Sorted (fun a b => le a b = true) l →
      List.Sorted (fun a b => le a b = true) (pyInsert le x l) := by
  induction l with
  | nil =>
    intro h
    simp [pyInsert]
  | cons y ys ih =>
    intro h
    rw [List.sorted_cons] at h
    by_cases hxy : le x y = true
    · simp only [pyInsert, if_pos hxy]
      rw [List.sorted_cons]
      constructor
      · intro b hb
        cases hb with
        | head => exact hxy
        | tail _ hb2 => exact htrans x y b hxy (h.1 b hb2)
      · rw [List.sorted_cons]
        exact h
    · simp only [pyInsert, if_neg hxy]
      rw [List.sorted_cons]
      constructor
      · intro b hb
        rcases mem_pyInsert le x ys hb with heq | hb2
        · rw [heq]
          exact htotal x y (by
            cases hle : le x y with
            | false => rfl
            | true => exact absurd hle hxy)
        · exact h.1 b hb2
      · exact ih h.2

theorem perm_pyInsert {α : Type} (le : α → α → Bool) (x : α) (l : List α) :
    (pyInsert le x l).Perm (x :: l) := by
  induction l with
  | nil => exact List.Perm.refl _
  | cons y ys ih =>
    by_cases hxy : le x y = true
    · simp only [pyInsert, if_pos hxy]
      exact List.Perm.refl _
    · simp only [pyInsert, if_neg hxy]
      exact (ih.cons y).trans (List.Perm.swap x y ys)

theorem perm_pySorted {α : Type} (le : α → α → Bool) (l : List α) :
    (pySorted le l).Perm l := by
  induction l with
  | nil => exact List.Perm.refl _
  | cons x xs ih =>
    exact (perm_pyInsert le x (pySorted le xs)).trans (ih.cons x)

theorem sorted_pySorted {α : Type} (le : α → α → Bool)
    (htrans : ∀ a b c, le a b = true → le b c = true → le a c = true)
    (htotal : ∀ a b, le a b = false → le b a = true) (l : List α) :
    List.Sorted (fun a b => le a b = true) (pySorted le l) := by
  induction l with
  | nil => simp [pySorted]
  | cons x xs ih => exact sorted_pyInsert le htrans htotal x (pySorted le xs) ih

theorem pySorted_eq_of_perm {α : Type} (le : α → α → Bool)
    (htrans : ∀ a b c, le a b = true → le b c = true → le a c = true)
    (htotal : ∀ a b, le a b = false → le b a = true)
    (hanti : ∀ a b, le a b = true → le b a = true → a = b)
    {l1 l2 : List α} (h : l1.Perm l2) : pySorted le l1 = pySorted le l2 := by
  haveI : IsAntisymm α (fun a b => le a b = true) := ⟨hanti⟩
  exact List.eq_of_perm_of_sorted
    ((perm_pySorted le l1).trans (h.trans (perm_pySorted le l2).symm))
    (sorted_pySorted le htrans htotal l1) (sorted_pySorted le htrans htotal l2)

theorem register_eq_match (reg : CssRulesRegistry) (l : List (String × String)) :
    register reg l =
      (match lookupA reg.existingRules
          ((serializeDecls (pySorted pairLe l)).length, serializeDecls (pySorted pairLe l)) with
       | some t => (t.1, reg)
       | Option.none =>
         (reg.prefixStr ++ "_x" ++ zfill4 (hexStrLower reg.existingRules.length),
          CssRulesRegistry.mk reg.prefixStr reg.digestSize
            (reg.existingRules ++
              [(((serializeDecls (pySorted pairLe l)).length,
                 serializeDecls (pySorted pairLe l)),
                (reg.prefixStr ++ "_x" ++ zfill4 (hexStrLower reg.existingRules.length),
                 serializeDecls (pySorted pairLe l),
                 pyDictOf (pySorted pairLe l)))]))) := rfl

theorem string_append_right_inj (p a b : String) (h : p ++ a = p ++ b) : a = b := by
  have hd : (p ++ a).data = (p ++ b).data := by rw [h]
  rw [String.data_append, String.data_append] at hd
  exact String.ext (List.append_cancel_left hd)

theorem register_classname_fresh (reg : CssRulesRegistry) (l : List (String × String))
    (h : lookupA reg.existingRules
      ((serializeDecls (pySorted pairLe l)).length,
       serializeDecls (pySorted pairLe l)) = Option.none) :
    (register reg l).1 =
      reg.prefixStr ++ "_x" ++ zfill4 (hexStrLower reg.existingRules.length) := by
  rw [register_eq_match, h]

theorem register_state_fresh (reg : CssRulesRegistry) (l : List (String × String))
    (h : lookupA reg.existingRules
      ((serializeDecls (pySorted pairLe l)).length,
       serializeDecls (pySorted pairLe l)) = Option.none) :
    (register reg l).2 =
      CssRulesRegistry.mk reg.prefixStr reg.digestSize
        (reg.existingRules ++
          [(((serializeDecls (pySorted pairLe l)).length,
             serializeDecls (pySorted pairLe l)),
            (reg.prefixStr ++ "_x" ++ zfill4 (hexStrLower reg.existingRules.length),
             serializeDecls (pySorted pairLe l),
             pyDictOf (pySorted pairLe l)))]) := by
  rw [register_eq_match, h]

/-- C9 counterexample: the declaration sets `[("a", "b;\n\ta: b: b")]` and
`[("a", "b"), ("a: b", "b")]` are semantically distinct (only the second
contains the declaration `("a", "b")`), yet within one registry instance both
receive the same classname, because their serialized blocks coincide — the
serialization is not injective when a value embeds `";\n\t"`. -/
theorem c9_registry_distinct_sets_share_classname :
    (register (register (newCssRulesRegistry "xx2h" 28) [("a", "b;\n\ta: b: b")]).2
        [("a", "b"), ("a: b", "b")]).1 =
      (register (newCssRulesRegistry "xx2h" 28) [("a", "b;\n\ta: b: b")]).1 ∧
    ("a", "b") ∈ [("a", "b"), ("a: b", "b")] ∧
    ("a", "b") ∉ [("a", "b;\n\ta: b: b")] := by
  refine ⟨by decide, by decide, by decide⟩

/-- C9 (amended): within one `CssRulesRegistry` instance, `register` called on
any two permutations of the same declaration list returns the same classname;
two registrations whose canonical serialized blocks differ receive distinct
sequential classnames of the form `<prefixStr>_x<4-hex-digit index>` (distinct
declaration sets can share a classname only when their serialized blocks
collide, as values embedding `";\n\t"` allow); the first registration of a
fresh instance is named `<prefixStr>_x0000`. -/
theorem c9_registry_determinism :
    (∀ (reg : CssRulesRegistry) (l1 l2 : List (String × String)),
      l1.Perm l2 → (register reg l1).1 = (register reg l2).1) ∧
    (∀ (pfx : String) (ds : ℕ) (l1 l2 : List (String × String)),
      serializeDecls (pySorted pairLe l1) ≠ serializeDecls (pySorted pairLe l2) →
      (register (register (newCssRulesRegistry pfx ds) l1).2 l2).1 ≠
        (register (newCssRulesRegistry pfx ds) l1).1) ∧
    (∀ (pfx : String) (ds : ℕ) (l : List (String × String)),
      (register (newCssRulesRegistry pfx ds) l).1 = pfx ++ "_x0000") := by
  refine ⟨?_, ?_, ?_⟩
  · intro reg l1 l2 h
    have hs : pySorted pairLe l1 = pySorted pairLe l2 :=
      pySorted_eq_of_perm pairLe pairLe_trans pairLe_total pairLe_antisymm h
    rw [register_eq_match reg l1, register_eq_match reg l2, hs]
  · intro pfx ds l1 l2 hne
    have hk : (((serializeDecls (pySorted pairLe l1)).length,
        serializeDecls (pySorted pairLe l1)) : ℕ × String) ≠
        ((serializeDecls (pySorted pairLe l2)).length,
         serializeDecls (pySorted pairLe l2)) :=
      fun he => hne (congrArg Prod.snd he)
    have hst : (register (newCssRulesRegistry pfx ds) l1).2 =
        CssRulesRegistry.mk pfx ds
          [(((serializeDecls (pySorted pairLe l1)).length,
             serializeDecls (pySorted pairLe l1)),
            (pfx ++ "_x" ++ zfill4 (hexStrLower 0),
             serializeDecls (pySorted pairLe l1),
             pyDictOf (pySorted pairLe l1)))] := by
      rw [register_state_fresh (newCssRulesRegistry pfx ds) l1 rfl]
      rfl
    have hc1 : (register (newCssRulesRegistry pfx ds) l1).1 =
        pfx ++ "_x" ++ zfill4 (hexStrLower 0) := by
      rw [register_classname_fresh (newCssRulesRegistry pfx ds) l1 rfl]
      rfl
    have hlk2 : lookupA
        (CssRulesRegistry.mk pfx ds
          [(((serializeDecls (pySorted pairLe l1)).length,
             serializeDecls (pySorted pairLe l1)),
            (pfx ++ "_x" ++ zfill4 (hexStrLower 0),
             serializeDecls (pySorted pairLe l1),
             pyDictOf (pySorted pairLe l1)))]).existingRules
        ((serializeDecls (pySorted pairLe l2)).length,
         serializeDecls (pySorted pairLe l2)) = Option.none := by
      simp only [lookupA]
      rw [if_neg hk]
    have hc2 : (register (register (newCssRulesRegistry pfx ds) l1).2 l2).1 =
        pfx ++ "_x" ++ zfill4 (hexStrLower 1) := by
      rw [hst, register_classname_fresh _ l2 hlk2]
      rfl
    rw [hc2, hc1]
    intro hcontra
    rw [show zfill4 (hexStrLower 1) = "0001" from by decide,
      show zfill4 (hexStrLower 0) = "0000" from by decide,
      String.append_assoc, String.append_assoc] at hcontra
    have := string_append_right_inj _ _ _ hcontra
    exact absurd this (by decide)
  · intro pfx ds l
    rw [register_classname_fresh (newCssRulesRegistry pfx ds) l rfl]
    show pfx ++ "_x" ++ zfill4 (hexStrLower 0) = pfx ++ "_x0000"
    rw [show zfill4 (hexStrLower 0) = "0000" from by decide, String.append_assoc]
    exact congrArg (fun s => pfx ++ s) (by decide)

theorem c9_registry_determinism_witness :
    ((register (newCssRulesRegistry "xx2h" 28) [("a", "1"), ("b", "2")]).1 =
      (register (newCssRulesRegistry "xx2h" 28) [("b", "2"), ("a", "1")]).1) ∧
    ((register (register (newCssRulesRegistry "xx2h" 28) [("a", "1")]).2
        [("b", "2")]).1 ≠
      (register (newCssRulesRegistry "xx2h" 28) [("a", "1")]).1) ∧
    ((register (newCssRulesRegistry "xx2h" 28) [("a", "1")]).1 = "xx2h" ++ "_x0000") :=
  ⟨c9_registry_determinism.1 (newCssRulesRegistry "xx2h" 28) [("a", "1"), ("b", "2")]
      [("b", "2"), ("a", "1")] (by decide),
   c9_registry_determinism.2.1 "xx2h" 28 [("a", "1")] [("b", "2")] (by decide),
   c9_registry_determinism.2.2 "xx2h" 28 [("a", "1")]⟩
